import Mathlib

/-!
# dbusmenu-dumper

A shallow embedding of `tools/dbusmenu-dumper.c`: the serializer of a menu item
tree (`strv_dumper`, `collection_iterate`, `collection_dumper`,
`print_menuitem`, `root_timeout`), the two option callbacks and `main`.

Text is `String`; what the C code writes with `g_print` is the text a function
returns or appends to the `stdout` field of `World`, what it writes with
`g_printerr` is appended to `stderr`.  What the tool takes from outside its own
code is a parameter: the GLib function `g_strdup_value_contents` and the memory
behind a pointer array in `Environment`, the outcome of `dbusmenu_client_new`
and the events of the main loop in `main`.
-/

namespace DbusmenuDumper

/-! ## Data model -/

/-- Modelled from the spec: the GLib `GValue` a property holds, "a tagged union
of string, integer, boolean, list-of-strings, other", together with the
dbus-glib collection types (`dbus_g_type_is_collection`), whose elements are
values again.  `strv` is the type `G_TYPE_STRV`. -/
inductive GValue where
  | boolean (b : Bool)
  | int (i : Int)
  | string (s : String)
  | strv (xs : List String)
  | collection (elems : List GValue)
  | other (type_name : String)

/-- Modelled from the spec: the menu item of `libdbusmenu-glib/menuitem.h`, "a
tree node with an integer identifier, a mapping from property-name to typed
property value, and an ordered sequence of child references".  `properties` is
what `dbusmenu_menuitem_properties_list` returns, `value` is
`dbusmenu_menuitem_property_get_value`, `children` is
`dbusmenu_menuitem_get_children`. -/
inductive DbusmenuMenuitem where
  | mk (id : Int) (properties : List String) (value : String → GValue)
      (children : List DbusmenuMenuitem)

/-- The identifier `dbusmenu_menuitem_get_id` returns. -/
def dbusmenu_menuitem_get_id : DbusmenuMenuitem → Int
  | .mk id _ _ _ => id

/-- The names `dbusmenu_menuitem_properties_list` returns, in its order. -/
def dbusmenu_menuitem_properties_list : DbusmenuMenuitem → List String
  | .mk _ properties _ _ => properties

/-- The value `dbusmenu_menuitem_property_get_value` returns for a name. -/
def dbusmenu_menuitem_property_get_value : DbusmenuMenuitem → String → GValue
  | .mk _ _ value _ => value

/-- The list `dbusmenu_menuitem_get_children` returns. -/
def dbusmenu_menuitem_get_children : DbusmenuMenuitem → List DbusmenuMenuitem
  | .mk _ _ _ children => children

/-- What the serializer takes from outside its own code.
`g_strdup_value_contents` is the GLib function of that name.  `past_array value
depth` is the memory behind the pointer array of the call `collection_dumper
(value, depth)`: the strings whose addresses stand in the words after the last
pointer added to the array, up to the first word that is `NULL`; it is the
empty list when that first word is `NULL`. -/
structure Environment where
  g_strdup_value_contents : GValue → String
  past_array : GValue → Nat → List String

/-! ## GLib string helpers -/

/-- `g_strnfill (length, fill_char)`: `length` copies of `fill_char`. -/
def g_strnfill (length : Nat) (fill_char : Char) : String :=
  String.mk (List.replicate length fill_char)

/-- `g_strjoinv (separator, str_array)`: the strings of the array with the
separator between each two of them; the empty array gives the empty string. -/
def g_strjoinv (separator : String) : List String → String
  | [] => ""
  | [s] => s
  | s :: t => s ++ separator ++ g_strjoinv separator t

/-- `g_utf8_strlen (p, -1)`: the number of characters of the string. -/
def g_utf8_strlen (p : String) : Nat := p.length

/-- The conversion `%d` of `printf`: the `int` it receives, in decimal with a
minus sign when negative. -/
def format_d (n : Int) : String := toString n

/-- The texts of a list one after the other. -/
def concat : List String → String
  | [] => ""
  | s :: t => s ++ concat t

/-! ## The serializer -/

/-- `strv_dumper` (lines 32-41), applied to the string array the value boxes. -/
def strv_dumper (strv : List String) : String :=
  let joined := g_strjoinv "\", \"" strv
  "[\"" ++ joined ++ "\"]"

/-- The iterator state `collection_iterator_t` (lines 43-48); `array` is the
pointer array, as the list of the strings added to it. -/
structure collection_iterator_t where
  space : String
  array : List String
  first : Bool

/-- `collection_iterate` (lines 50-75): called once for each element. -/
def collection_iterate (env : Environment) (value : GValue)
    (iter : collection_iterator_t) : collection_iterator_t :=
  let str :=
    match value with
    | .strv strv => strv_dumper strv
    | v => env.g_strdup_value_contents v
  if iter.first then
    { space := iter.space, array := iter.array ++ ["\n" ++ iter.space ++ str], first := false }
  else
    { space := iter.space, array := iter.array ++ [",\n" ++ iter.space ++ str],
      first := iter.first }

/-- `dbus_g_type_collection_value_iterate`: calls the iterator on each element of
a collection in its order; on a value that is no collection it does nothing. -/
def dbus_g_type_collection_value_iterate (value : GValue)
    (iterator : GValue → collection_iterator_t → collection_iterator_t)
    (user_data : collection_iterator_t) : collection_iterator_t :=
  match value with
  | .collection elems => elems.foldl (fun it e => iterator e it) user_data
  | _ => user_data

/-- `collection_dumper` (lines 77-100).  The final `g_strjoinv (NULL, ...)` of
line 96 joins with nothing between them the strings it reads from
`array->pdata`.  No `NULL` pointer is ever added to the array, so `g_strjoinv`
does not stop at the last string added: it goes on through the words that lie
behind the array until it meets a `NULL` word, and the strings it finds there,
`env.past_array value depth`, come after the closing line in what is returned.
When one of those words is not the address of a string the call faults and
nothing is returned; the definition describes the calls that return. -/
def collection_dumper (env : Environment) (value : GValue)
    (depth : Nat) : String :=
  let space := g_strnfill depth ' '
  let array := ["["]
  let iter : collection_iterator_t := { space := space, array := array, first := true }
  let iter := dbus_g_type_collection_value_iterate value
    (collection_iterate env) iter
  let array := iter.array ++ ["\n" ++ space ++ "]"]
  g_strjoinv "" (array ++ env.past_array value depth)

/-- `dbus_g_type_is_collection (G_VALUE_TYPE (value))`. -/
def dbus_g_type_is_collection : GValue → Bool
  | .collection _ => true
  | _ => false

/-- One round of the property loop of `print_menuitem` (lines 111-119): the text
it prints for the property `name`. -/
def print_property (env : Environment)
    (property_get_value : String → GValue) (depth : Nat) (name : String) : String :=
  let space := g_strnfill depth ' '
  let value := property_get_value name
  let str :=
    if dbus_g_type_is_collection value then
      collection_dumper env value (depth + g_utf8_strlen name + 2 + 2)
    else
      env.g_strdup_value_contents value
  ",\n" ++ space ++ "\"" ++ name ++ "\": " ++ str

/-- The property loop of `print_menuitem` (lines 110-120). -/
def print_properties (env : Environment)
    (property_get_value : String → GValue) (depth : Nat) : List String → String
  | [] => ""
  | name :: next =>
    print_property env property_get_value depth name
      ++ print_properties env property_get_value depth next

mutual
/-- `print_menuitem` (lines 102-141): the text the call prints. -/
def print_menuitem (env : Environment) :
    DbusmenuMenuitem → Nat → String
  | .mk id properties value children, depth =>
    let space := g_strnfill depth ' '
    space ++ "\"id\": " ++ format_d id
      ++ print_properties env value depth properties
      ++ (match children with
          | [] => ""
          | child :: next =>
            let childspace := g_strnfill (depth + 4) ' '
            ",\n" ++ space ++ "\"submenu\": [\n" ++ childspace ++ "\x7b\n"
              ++ print_children env (child :: next) depth
              ++ "\n" ++ childspace ++ "\x7d\n" ++ space ++ "]")
/-- The loop over the children in `print_menuitem` (lines 128-133), `depth` being
the depth of the parent. -/
def print_children (env : Environment) :
    List DbusmenuMenuitem → Nat → String
  | [], _ => ""
  | child :: next, depth =>
    let childspace := g_strnfill (depth + 4) ' '
    print_menuitem env child (depth + 4 + 2)
      ++ (if !next.isEmpty then "\n" ++ childspace ++ "\x7d,\n" ++ childspace ++ "\x7b\n" else "")
      ++ print_children env next depth
end

/-! ## Process state, callbacks and `main` -/

/-- The state of the process: the two static variables `dbusname` and
`dbusobject` (`none` is `NULL`), whether the main loop was told to quit, the
pending timeout sources with their data, whether a client was created, and the
text written so far to the two streams. -/
structure World where
  dbusname : Option String
  dbusobject : Option String
  loop_quit : Bool
  timeouts : List DbusmenuMenuitem
  client_created : Bool
  stdout : String
  stderr : String

/-- The state at the start of `main`. -/
def World.start : World :=
  { dbusname := none, dbusobject := none, loop_quit := false, timeouts := [],
    client_created := false, stdout := "", stderr := "" }

/-- `root_timeout` (lines 143-154): prints the tree and quits the loop. -/
def root_timeout (env : Environment) (data : DbusmenuMenuitem)
    (w : World) : World :=
  let newroot := data
  let w := { w with stdout := w.stdout ++ "\x7b\n" }
  let w := { w with stdout := w.stdout ++ print_menuitem env newroot 2 }
  let w := { w with stdout := w.stdout ++ "\n\x7d\n" }
  { w with loop_quit := true }

/-- `new_root_cb` (lines 156-167). -/
def new_root_cb (newroot : Option DbusmenuMenuitem) (w : World) : World :=
  match newroot with
  | none =>
    let w := { w with stderr := w.stderr ++ "ERROR: Unable to create Dbusmenu Root\n" }
    { w with loop_quit := true }
  | some newroot => { w with timeouts := w.timeouts ++ [newroot] }

/-- The result of an option callback: its return value, the error it set and
the state it leaves. -/
structure CallbackResult where
  retval : Bool
  error : Option String
  world : World

/-- `option_dbusname` (lines 173-183). -/
def option_dbusname (_arg : String) (value : String) (w : World) : CallbackResult :=
  match w.dbusname with
  | some dbusname =>
    { retval := false,
      error := some ("DBus name already set to '" ++ dbusname ++ "' can't reset it to '"
        ++ value ++ "'."),
      world := w }
  | none => { retval := true, error := none, world := { w with dbusname := some value } }

/-- `option_dbusobject` (lines 185-195). -/
def option_dbusobject (_arg : String) (value : String) (w : World) : CallbackResult :=
  match w.dbusobject with
  | some dbusobject =>
    { retval := false,
      error := some ("DBus name already set to '" ++ dbusobject ++ "' can't reset it to '"
        ++ value ++ "'."),
      world := w }
  | none => { retval := true, error := none, world := { w with dbusobject := some value } }

/-- `usage` (lines 197-202). -/
def usage (w : World) : World :=
  { w with stderr := w.stderr ++ "dbusmenu-dumper --dbus-name=<name> --dbus-object=<object>\n" }

/-- An argument of the command line as `g_option_context_parse` reads it against
`general_options` (lines 204-207): an occurrence of `--dbus-name`/`-d` or of
`--dbus-object`/`-o` with its value, an argument that is no option and is left
in place, or an argument GLib itself rejects with the given message (an unknown
option, an option without its value).  The help options GLib adds on its own
are not part of `general_options` and are not modelled. -/
inductive OptionArg where
  | dbus_name (value : String)
  | dbus_object (value : String)
  | positional (text : String)
  | rejected (message : String)

/-- `g_option_context_parse` with the entries `general_options`: the callback of
each occurrence is called in the order of the command line, and parsing fails
with the error of the first callback that returns `FALSE`. -/
def g_option_context_parse : List OptionArg → World → CallbackResult
  | [], w => { retval := true, error := none, world := w }
  | .dbus_name value :: rest, w =>
    let r := option_dbusname "--dbus-name" value w
    if r.retval then g_option_context_parse rest r.world else r
  | .dbus_object value :: rest, w =>
    let r := option_dbusobject "--dbus-object" value w
    if r.retval then g_option_context_parse rest r.world else r
  | .positional _ :: rest, w => g_option_context_parse rest w
  | .rejected message :: _, w => { retval := false, error := some message, world := w }

/-- What the main loop dispatches: the client's root-changed signal with the
new root (`none` is `NULL`), or the oldest pending timeout source coming due. -/
inductive LoopEvent where
  | root_changed (newroot : Option DbusmenuMenuitem)
  | timeout

/-- One dispatch of the main loop: `new_root_cb` for the signal, `root_timeout`
for a timeout source, which is then removed as the callback returns `FALSE`. -/
def dispatch (env : Environment) (ev : LoopEvent) (w : World) : World :=
  match ev with
  | .root_changed newroot => new_root_cb newroot w
  | .timeout =>
    match w.timeouts with
    | [] => w
    | data :: pending => root_timeout env data { w with timeouts := pending }

/-- `g_main_loop_run`: dispatches the events in order, one for each iteration of
the loop, until a callback quits the loop.  When the events end before that,
the loop waits forever and the result has `loop_quit = false`. -/
def g_main_loop_run (env : Environment) :
    List LoopEvent → World → World
  | [], w => w
  | ev :: rest, w =>
    let w := dispatch env ev w
    if w.loop_quit then w else g_main_loop_run env rest w

/-- `main` (lines 209-250): the exit status (`none` when the main loop never
returns) and the final state, for a command line `argv`, the outcome
`client_new` of `dbusmenu_client_new` and the events the loop dispatches. -/
def main (env : Environment) (argv : List OptionArg)
    (client_new : String → String → Bool) (events : List LoopEvent) : Option Int × World :=
  let r := g_option_context_parse argv World.start
  let w := r.world
  if !r.retval then
    (some 1, { w with stderr := w.stderr ++ "option parsing failed: " ++ r.error.getD "" ++ "\n" })
  else
    match w.dbusname with
    | none => (some 1, usage { w with stderr := w.stderr ++ "ERROR: dbus-name not specified\n" })
    | some dbusname =>
      match w.dbusobject with
      | none =>
        (some 1, usage { w with stderr := w.stderr ++ "ERROR: dbus-object not specified\n" })
      | some dbusobject =>
        if !client_new dbusname dbusobject then
          (some 1, { w with stderr := w.stderr ++ "ERROR: Unable to create Dbusmenu Client\n" })
        else
          let w := { w with client_created := true }
          let w := g_main_loop_run env events w
          (if w.loop_quit then some 0 else none, w)

/-- The bytes of the UTF-8 encoding of a character. -/
def utf8_bytes (ch : Char) : List Nat :=
  let n := ch.toNat
  if n < 128 then [n]
  else if n < 2048 then [192 + n / 64, 128 + n % 64]
  else if n < 65536 then [224 + n / 4096, 128 + n / 64 % 64, 128 + n % 64]
  else [240 + n / 262144, 128 + n / 4096 % 64, 128 + n / 64 % 64, 128 + n % 64]

/-- What GLib's `g_strescape (source, NULL)` writes for one byte: a backslash
escape for backspace, form feed, newline, carriage return, tab, vertical tab,
backslash and double quote, three octal digits after a backslash for any
other byte below 32 or above 126, and the byte itself otherwise. -/
def escape_byte (b : Nat) : String :=
  if b = 8 then "\\b"
  else if b = 12 then "\\f"
  else if b = 10 then "\\n"
  else if b = 13 then "\\r"
  else if b = 9 then "\\t"
  else if b = 11 then "\\v"
  else if b = 92 then "\\\\"
  else if b = 34 then "\\\""
  else if b < 32 ∨ 126 < b then
    String.mk ['\\', Nat.digitChar (b / 64), Nat.digitChar (b / 8 % 8), Nat.digitChar (b % 8)]
  else String.mk [Char.ofNat b]

/-- GLib's `g_strescape (source, NULL)`. -/
def g_strescape (source : String) : String :=
  concat ((source.data.flatMap utf8_bytes).map escape_byte)

/-- A value for the parameter `g_strdup_value_contents` at concrete inputs, after
GLib 2.74: booleans as `TRUE`/`FALSE`, integers in decimal, a string escaped and
between double quotes, a string array as `[`, its strings escaped, between
double quotes and joined by `, `, and `]`, any other boxed value by its type
name and an address. -/
def contents_sample : GValue → String
  | .boolean true => "TRUE"
  | .boolean false => "FALSE"
  | .int i => format_d i
  | .string s => "\"" ++ g_strescape s ++ "\""
  | .strv xs => "[" ++ g_strjoinv ", " (xs.map fun s => "\"" ++ g_strescape s ++ "\"") ++ "]"
  | .collection _ => "((GPtrArray*) 0x8a2f10)"
  | .other type_name => "((" ++ type_name ++ "*) 0x8a2f10)"

/-- The environment of the concrete inputs on a fresh heap: the word behind
every pointer array is `NULL`. -/
def env_sample : Environment :=
  { g_strdup_value_contents := contents_sample, past_array := fun _ _ => [] }

/-- The environment of the concrete inputs on a used heap: behind every pointer
array lie the addresses of two strings of an earlier call, its opening `[` and
an element line of two spaces, before the first `NULL` word. -/
def env_stale : Environment :=
  { g_strdup_value_contents := contents_sample, past_array := fun _ _ => ["[", "\n  1"] }

/-! ## Definitions used to state the properties -/

/-- The text of a property value as `print_menuitem` formats it: a collection
through `collection_dumper` at the given width, any other value through
`g_strdup_value_contents`. -/
def formatted_value (env : Environment) (v : GValue)
    (width : Nat) : String :=
  match v with
  | .collection elems => collection_dumper env (.collection elems) width
  | v => env.g_strdup_value_contents v

/-- The text of one element of a collection: the string-list form for a string
array, the generic rendering otherwise. -/
def element_text (env : Environment) (e : GValue) : String :=
  match e with
  | .strv xs => strv_dumper xs
  | v => env.g_strdup_value_contents v

/-- The strings `collection_dumper` has added to its array before line 96:
`[`, the strings `collection_iterate` adds for the elements, and the closing
line of line 92. -/
def collection_array (env : Environment) (value : GValue) (depth : Nat) : List String :=
  let space := g_strnfill depth ' '
  let array := ["["]
  let iter : collection_iterator_t := { space := space, array := array, first := true }
  let iter := dbus_g_type_collection_value_iterate value (collection_iterate env) iter
  iter.array ++ ["\n" ++ space ++ "]"]

/-- The lines of the elements of a collection at width `w`: for the first
element a newline, `w` spaces and its text, for each later element `,`, a
newline, `w` spaces and its text. -/
def element_lines (env : Environment) (w : Nat) :
    List GValue → String
  | [] => ""
  | e :: later =>
    "\n" ++ g_strnfill w ' ' ++ element_text env e
      ++ concat (later.map fun x =>
          ",\n" ++ g_strnfill w ' ' ++ element_text env x)

/-- The strings of the elements of a collection at width `w`, one for each
element: for the first element a newline, `w` spaces and its text, for each
later element `,`, a newline, `w` spaces and its text. -/
def element_strings (env : Environment) (w : Nat) : List GValue → List String
  | [] => []
  | e :: later =>
    ("\n" ++ g_strnfill w ' ' ++ element_text env e)
      :: later.map fun x => ",\n" ++ g_strnfill w ' ' ++ element_text env x

/-- The item reached from `item` by following the given child positions. -/
def descendant : DbusmenuMenuitem → List Nat → Option DbusmenuMenuitem
  | item, [] => some item
  | item, i :: path =>
    match (dbusmenu_menuitem_get_children item)[i]? with
    | none => none
    | some child => descendant child path

/-- A leaf with a string property and a collection property. -/
def sample_leaf : DbusmenuMenuitem :=
  .mk 7 ["label", "types"]
    (fun n => if n = "types" then .collection [.int 1, .strv ["a"]] else .string "x") []

/-- The item of the example of the specification: id 42, the boolean property
`visible` set, no children. -/
def sample_visible : DbusmenuMenuitem :=
  .mk 42 ["visible"] (fun _ => .boolean true) []

/-- An item with the one child `sample_leaf`. -/
def sample_middle : DbusmenuMenuitem :=
  .mk 3 [] (fun _ => .other "none") [sample_leaf]

/-- A tree of three levels: the root 1 has the children `sample_visible` and
`sample_middle`. -/
def sample_tree : DbusmenuMenuitem :=
  .mk 1 [] (fun _ => .other "none") [sample_visible, sample_middle]

/-- An item whose one property `types` is a string array with a string that
holds double quotes. -/
def sample_strv : DbusmenuMenuitem :=
  .mk 1 ["types"] (fun _ => .strv ["say \"hi\""]) []

/-- An item whose one property `types` is the empty string array. -/
def sample_strv_empty : DbusmenuMenuitem :=
  .mk 1 ["types"] (fun _ => .strv []) []

/-- An item whose one property `types` is a collection of one integer. -/
def sample_collection : DbusmenuMenuitem :=
  .mk 5 ["types"] (fun _ => .collection [.int 1]) []

/-- The number of occurrences of `--dbus-name` on a command line. -/
def count_dbus_name : List OptionArg → Nat
  | [] => 0
  | .dbus_name _ :: rest => count_dbus_name rest + 1
  | _ :: rest => count_dbus_name rest

/-- The number of occurrences of `--dbus-object` on a command line. -/
def count_dbus_object : List OptionArg → Nat
  | [] => 0
  | .dbus_object _ :: rest => count_dbus_object rest + 1
  | _ :: rest => count_dbus_object rest

mutual
/-- Two items are the same static tree: the same id, the same property list in
the same order, the same value for each listed property, and children that
are pairwise the same trees in the same order. -/
def same_tree : DbusmenuMenuitem → DbusmenuMenuitem → Prop
  | .mk id properties value children, .mk id2 properties2 value2 children2 =>
    id = id2 ∧ properties = properties2 ∧ (∀ name ∈ properties, value name = value2 name)
      ∧ same_trees children children2
/-- Two lists of items are pairwise the same trees. -/
def same_trees : List DbusmenuMenuitem → List DbusmenuMenuitem → Prop
  | [], [] => True
  | a :: rest, b :: rest2 => same_tree a b ∧ same_trees rest rest2
  | [], _ :: _ => False
  | _ :: _, [] => False
end

/-- The item `sample_visible` with other values for the names it does not list. -/
def sample_visible_again : DbusmenuMenuitem :=
  .mk 42 ["visible"] (fun n => if n = "visible" then .boolean true else .int 0) []

/-- The text has no character that `p` marks. -/
def free_of (p : Char → Bool) (s : String) : Bool :=
  s.data.all fun ch => !p ch

/-- An element of a collection writes no marked character of its own: the
strings of a string array, and the generic rendering of any other element. -/
def element_free (p : Char → Bool) (env : Environment) :
    GValue → Bool
  | .strv xs => xs.all (free_of p)
  | v => free_of p (env.g_strdup_value_contents v)

/-- A property value writes no marked character of its own: the elements of a
collection, and the generic rendering of any other value. -/
def value_free (p : Char → Bool) (env : Environment) :
    GValue → Bool
  | .collection elems => elems.all (element_free p env)
  | v => free_of p (env.g_strdup_value_contents v)

mutual
/-- The property names, generic renderings and string-list elements of an item
tree have no character that `p` marks. -/
def tree_free (p : Char → Bool) (env : Environment) :
    DbusmenuMenuitem → Bool
  | .mk _ properties value children =>
    properties.all (fun name =>
        free_of p name && value_free p env (value name))
      && trees_free p env children
/-- The same for each item of a list. -/
def trees_free (p : Char → Bool) (env : Environment) :
    List DbusmenuMenuitem → Bool
  | [] => true
  | child :: next =>
    tree_free p env child && trees_free p env next
end

/-- The characters of a text with `k` spaces inserted after every newline. -/
def indent_after_newlines (k : Nat) : List Char → List Char
  | [] => []
  | ch :: rest =>
    if ch = '\n' then ch :: (List.replicate k ' ' ++ indent_after_newlines k rest)
    else ch :: indent_after_newlines k rest

/-- The text with `k` spaces inserted at the start of every line: at the start
of the text and after every newline. -/
def indent_lines (k : Nat) (s : String) : String :=
  String.mk (List.replicate k ' ' ++ indent_after_newlines k s.data)

/-- The text with `k` spaces inserted after every newline. -/
def shift (k : Nat) (s : String) : String :=
  String.mk (indent_after_newlines k s.data)

/-- The character is a newline. -/
def is_newline (ch : Char) : Bool := ch == '\n'

/-- The number of occurrences of a character in a text. -/
def count_char (ch : Char) (s : String) : Nat :=
  s.data.count ch

/-- The character is a brace or a square bracket. -/
def is_bracket (ch : Char) : Bool :=
  ch == '\x7b' || ch == '\x7d' || ch == '[' || ch == ']'

/-- The numbers of opening braces, closing braces, opening square brackets and
closing square brackets of a text. -/
def profile (s : String) : Nat × Nat × Nat × Nat :=
  (count_char '\x7b' s, count_char '\x7d' s, count_char '[' s, count_char ']' s)

mutual
/-- The number of items of a tree. -/
def count_items : DbusmenuMenuitem → Nat
  | .mk _ _ _ children => 1 + count_items_list children
/-- The number of items of the trees of a list. -/
def count_items_list : List DbusmenuMenuitem → Nat
  | [] => 0
  | child :: next => count_items child + count_items_list next
end

/-- The number of bracket pairs of an element of a collection: one for a
string array. -/
def element_brackets : GValue → Nat
  | .strv _ => 1
  | _ => 0

/-- The number of bracket pairs of a property value: for a collection one for
the collection and one for each string array among its elements. -/
def value_brackets : GValue → Nat
  | .collection elems => 1 + (elems.map element_brackets).sum
  | _ => 0

mutual
/-- The number of bracket pairs of a tree: those of the values of the listed
properties of each item, and one for the submenu block of each item that has
children. -/
def count_brackets : DbusmenuMenuitem → Nat
  | .mk _ properties value children =>
    (properties.map fun name => value_brackets (value name)).sum
      + (if children.isEmpty then 0 else 1) + count_brackets_list children
/-- The number of bracket pairs of the trees of a list. -/
def count_brackets_list : List DbusmenuMenuitem → Nat
  | [] => 0
  | child :: next => count_brackets child + count_brackets_list next
end

/-! ## Lemmas on the helpers -/

theorem g_strjoinv_cons_cons (sep a b : String) (t : List String) :
    g_strjoinv sep (a :: b :: t) = a ++ sep ++ g_strjoinv sep (b :: t) := by
  simp [g_strjoinv]

theorem g_strjoinv_empty_sep (l : List String) : g_strjoinv "" l = concat l := by
  induction l with
  | nil => rfl
  | cons a t ih =>
    cases t with
    | nil => simp [g_strjoinv, concat]
    | cons b t => rw [g_strjoinv_cons_cons, ih]; simp [concat]

theorem concat_append (l m : List String) : concat (l ++ m) = concat l ++ concat m := by
  induction l with
  | nil => simp [concat]
  | cons a t ih => simp [concat, ih, String.append_assoc]

theorem print_children_eq (c : Environment) (child : DbusmenuMenuitem)
    (next : List DbusmenuMenuitem) (d : Nat) :
    print_children c (child :: next) d =
      g_strjoinv ("\n" ++ g_strnfill (d + 4) ' ' ++ "\x7d,\n" ++ g_strnfill (d + 4) ' ' ++ "\x7b\n")
        ((child :: next).map (fun ci => print_menuitem c ci (d + 6))) := by
  induction next generalizing child with
  | nil => simp [print_children, g_strjoinv]
  | cons b t ih =>
    rw [print_children, ih b]
    simp [g_strjoinv_cons_cons, String.append_assoc]

/-- C1: an item with at least one child prints its id-and-properties text, then
`,\n`, `d` spaces, `"submenu": [\n`, `d + 4` spaces and an opening brace with a
newline, then the renderings of the children at depth `d + 6` in list order,
each two separated by a newline, `d + 4` spaces, a closing brace, `,\n`, `d + 4`
spaces and an opening brace with a newline, then a newline, `d + 4` spaces, a
closing brace, a newline, `d` spaces and `]`, and nothing after it. -/
theorem print_menuitem_submenu (c : Environment) (id : Int) (properties : List String)
    (value : String → GValue) (child : DbusmenuMenuitem) (next : List DbusmenuMenuitem)
    (d : Nat) :
    print_menuitem c (.mk id properties value (child :: next)) d =
      print_menuitem c (.mk id properties value []) d
        ++ (",\n" ++ g_strnfill d ' ' ++ "\"submenu\": [\n" ++ g_strnfill (d + 4) ' ' ++ "\x7b\n")
        ++ g_strjoinv
            ("\n" ++ g_strnfill (d + 4) ' ' ++ "\x7d,\n" ++ g_strnfill (d + 4) ' ' ++ "\x7b\n")
            ((child :: next).map (fun ci => print_menuitem c ci (d + 6)))
        ++ ("\n" ++ g_strnfill (d + 4) ' ' ++ "\x7d\n" ++ g_strnfill d ' ' ++ "]") := by
  rw [← print_children_eq]
  simp [print_menuitem, String.append_assoc]

theorem print_property_eq (c : Environment) (value : String → GValue) (d : Nat)
    (name : String) :
    print_property c value d name =
      ",\n" ++ g_strnfill d ' ' ++ "\"" ++ name ++ "\": "
        ++ formatted_value c (value name) (d + name.length + 4) := by
  unfold print_property formatted_value
  cases h : value name <;> simp [dbus_g_type_is_collection, g_utf8_strlen, Nat.add_assoc]

theorem print_properties_eq (c : Environment) (value : String → GValue) (d : Nat)
    (names : List String) :
    print_properties c value d names =
      concat (names.map fun name =>
        ",\n" ++ g_strnfill d ' ' ++ "\"" ++ name ++ "\": "
          ++ formatted_value c (value name) (d + name.length + 4)) := by
  induction names with
  | nil => rfl
  | cons a t ih => simp [print_properties, concat, ih, print_property_eq]

/-- C2: an item without children prints `d` spaces, `"id": `, its identifier in
decimal, and then for each property of its property list, in order, `,\n`, `d`
spaces, the name in double quotes, `: ` and the formatted value; nothing
follows, so an item without properties prints the id line alone. -/
theorem print_menuitem_leaf (c : Environment) (item : DbusmenuMenuitem) (d : Nat)
    (h : dbusmenu_menuitem_get_children item = []) :
    print_menuitem c item d =
      g_strnfill d ' ' ++ "\"id\": " ++ format_d (dbusmenu_menuitem_get_id item)
        ++ concat ((dbusmenu_menuitem_properties_list item).map fun name =>
            ",\n" ++ g_strnfill d ' ' ++ "\"" ++ name ++ "\": "
              ++ formatted_value c (dbusmenu_menuitem_property_get_value item name)
                  (d + name.length + 4))
    ∧ (dbusmenu_menuitem_properties_list item = [] →
        print_menuitem c item d =
          g_strnfill d ' ' ++ "\"id\": " ++ format_d (dbusmenu_menuitem_get_id item)) := by
  obtain ⟨id, properties, value, children⟩ := item
  simp only [dbusmenu_menuitem_get_children] at h
  subst h
  constructor
  · simp [print_menuitem, print_properties_eq, dbusmenu_menuitem_get_id,
      dbusmenu_menuitem_properties_list, dbusmenu_menuitem_property_get_value]
  · intro hp
    simp only [dbusmenu_menuitem_properties_list] at hp
    subst hp
    simp [print_menuitem, print_properties, dbusmenu_menuitem_get_id]


theorem collection_iterate_eq (c : Environment) (e : GValue) (it : collection_iterator_t) :
    collection_iterate c e it =
      if it.first then
        { space := it.space, array := it.array ++ ["\n" ++ it.space ++ element_text c e],
          first := false }
      else
        { space := it.space, array := it.array ++ [",\n" ++ it.space ++ element_text c e],
          first := false } := by
  cases hf : it.first <;> cases e <;> simp [collection_iterate, element_text, hf]

theorem iterate_foldl_later (c : Environment) (elems : List GValue) (sp : String)
    (arr : List String) :
    elems.foldl (fun it e => collection_iterate c e it)
        { space := sp, array := arr, first := false } =
      { space := sp, array := arr ++ elems.map (fun e => ",\n" ++ sp ++ element_text c e),
        first := false } := by
  induction elems generalizing arr with
  | nil => simp
  | cons e t ih =>
    rw [List.foldl_cons, collection_iterate_eq]
    simp only [Bool.false_eq_true, if_false]
    rw [ih]
    simp

theorem collection_array_eq (c : Environment) (elems : List GValue) (w : Nat) :
    collection_array c (.collection elems) w =
      "[" :: element_strings c w elems ++ ["\n" ++ g_strnfill w ' ' ++ "]"] := by
  unfold collection_array dbus_g_type_collection_value_iterate
  cases elems with
  | nil => rfl
  | cons e later =>
    simp only [List.foldl_cons]
    rw [collection_iterate_eq]
    simp only [if_true]
    rw [iterate_foldl_later]
    simp only [element_strings, List.cons_append, List.nil_append, List.singleton_append]

theorem concat_element_strings (c : Environment) (w : Nat) (elems : List GValue) :
    concat (element_strings c w elems) = element_lines c w elems := by
  cases elems with
  | nil => rfl
  | cons e later => simp only [element_strings, element_lines, concat]

theorem collection_dumper_array (c : Environment) (value : GValue) (depth : Nat) :
    collection_dumper c value depth =
      concat (collection_array c value depth ++ c.past_array value depth) := by
  unfold collection_dumper collection_array
  simp only [g_strjoinv_empty_sep]

theorem collection_dumper_eq (c : Environment) (elems : List GValue) (w : Nat) :
    collection_dumper c (.collection elems) w =
      "[" ++ element_lines c w elems ++ "\n" ++ g_strnfill w ' ' ++ "]"
        ++ concat (c.past_array (.collection elems) w) := by
  rw [collection_dumper_array, collection_array_eq, concat_append, List.cons_append, concat,
    concat_append, concat_element_strings]
  simp only [concat, String.append_empty, String.append_assoc]

theorem collection_dumper_clean (c : Environment) (hz : ∀ v w, c.past_array v w = [])
    (elems : List GValue) (w : Nat) :
    collection_dumper c (.collection elems) w =
      "[" ++ element_lines c w elems ++ "\n" ++ g_strnfill w ' ' ++ "]" := by
  rw [collection_dumper_eq, hz]
  simp only [concat, String.append_empty]

/-- C3: the strings `collection_dumper` puts in its array are those of the claim:
`[`, then for the first element a newline, `w` spaces and its text, for each
later element `,\n`, `w` spaces and its text, then the closing line of a
newline, `w` spaces and `]`.  What it returns is these strings followed by the
strings that lie behind the array: the closing `]` ends the text when the word
behind the array is `NULL`, and on a used heap text follows it. -/
theorem collection_dumper_elements :
    (∀ (c : Environment) (elems : List GValue) (w : Nat),
      collection_array c (.collection elems) w =
        "[" :: element_strings c w elems ++ ["\n" ++ g_strnfill w ' ' ++ "]"])
    ∧ (∀ (c : Environment) (xs : List String), element_text c (.strv xs) = strv_dumper xs)
    ∧ (∀ (c : Environment) (elems : List GValue) (w : Nat),
        collection_dumper c (.collection elems) w =
          "[" ++ element_lines c w elems ++ "\n" ++ g_strnfill w ' ' ++ "]"
            ++ concat (c.past_array (.collection elems) w))
    ∧ (∀ (contents : GValue → String) (elems : List GValue) (w : Nat),
        collection_dumper { g_strdup_value_contents := contents, past_array := fun _ _ => [] }
            (.collection elems) w =
          "[" ++ element_lines { g_strdup_value_contents := contents, past_array := fun _ _ => [] }
            w elems ++ "\n" ++ g_strnfill w ' ' ++ "]")
    ∧ collection_dumper env_stale (.collection []) 2 = "[\n  ][\n  1"
    ∧ collection_dumper env_stale (.collection [.int 1, .strv ["a"]]) 3
        = "[\n   1,\n   [\"a\"]\n   ][\n  1" := by
  refine ⟨collection_array_eq, fun _ _ => rfl, collection_dumper_eq, ?_, by decide, by decide⟩
  intro contents elems w
  exact collection_dumper_clean _ (fun _ _ => rfl) elems w

/-- C4, as the code has it: the closing line `collection_dumper` adds to its
array is a newline, exactly `w` spaces and `]`, the indentation of the elements;
for the empty collection the array holds `[` and that closing line. -/
theorem collection_dumper_close (c : Environment) (elems : List GValue) (w : Nat) :
    collection_array c (.collection elems) w =
      "[" :: element_strings c w elems ++ ["\n" ++ g_strnfill w ' ' ++ "]"]
    ∧ (collection_array c (.collection elems) w).getLast?
        = some ("\n" ++ g_strnfill w ' ' ++ "]")
    ∧ collection_array c (.collection []) w = ["[", "\n" ++ g_strnfill w ' ' ++ "]"] := by
  refine ⟨collection_array_eq c elems w, ?_, collection_array_eq c [] w⟩
  rw [collection_array_eq]
  exact List.getLast?_concat ("[" :: element_strings c w elems)

/-- C4 fails as stated: at width 2 the closing line of the empty collection is a
newline, two spaces and `]`, not a newline, `2 - 2` spaces and `]`, and what is
returned on a fresh heap is `[`, a newline, two spaces and `]`. -/
theorem collection_dumper_close_counterexample :
    collection_array env_sample (.collection []) 2 = ["[", "\n  ]"]
    ∧ collection_array env_sample (.collection []) 2
        ≠ ["[", "\n" ++ g_strnfill (2 - 2) ' ' ++ "]"]
    ∧ collection_dumper env_sample (.collection []) 2 = "[\n  ]"
    ∧ collection_dumper env_sample (.collection []) 2
        ≠ "[\n" ++ g_strnfill (2 - 2) ' ' ++ "]" := by
  decide

theorem quoted_join (x : String) (xs : List String) :
    "\"" ++ g_strjoinv "\", \"" (x :: xs) ++ "\"" =
      g_strjoinv ", " ((x :: xs).map fun s => "\"" ++ s ++ "\"") := by
  induction xs generalizing x with
  | nil => simp [g_strjoinv]
  | cons y t ih =>
    have e := ih y
    rw [List.map_cons] at e
    rw [g_strjoinv_cons_cons, List.map_cons, List.map_cons, g_strjoinv_cons_cons, ← e]
    have h : ("\", \"" : String) = "\"" ++ (", " ++ "\"") := by decide
    rw [h]
    simp only [String.append_assoc]

/-- C5: on a list of at least one string `strv_dumper` returns `[`, the strings
each between two double quotes with their characters unchanged and joined by
`, `, and `]`; on the empty list it returns `[""]`, the text it also returns for
the list of one empty string, and not `[]`. -/
theorem strv_dumper_quoted :
    (∀ (x : String) (xs : List String),
      strv_dumper (x :: xs) =
        "[" ++ g_strjoinv ", " ((x :: xs).map fun s => "\"" ++ s ++ "\"") ++ "]")
    ∧ strv_dumper ["a", "b", "c"] = "[\"a\", \"b\", \"c\"]"
    ∧ strv_dumper [] = "[\"\"]"
    ∧ strv_dumper [] = strv_dumper [""]
    ∧ strv_dumper [] ≠ "[" ++ g_strjoinv ", " (([] : List String).map fun s => "\"" ++ s ++ "\"") ++ "]" := by
  refine ⟨?_, by decide, by decide, by decide, by decide⟩
  intro x xs
  rw [← quoted_join]
  unfold strv_dumper
  have h1 : ("[\"" : String) = "[" ++ "\"" := by decide
  have h2 : ("\"]" : String) = "\"" ++ "]" := by decide
  rw [h1, h2]
  simp only [String.append_assoc]


theorem print_menuitem_leaf_witness :
    dbusmenu_menuitem_get_children sample_leaf = []
    ∧ (print_menuitem env_sample sample_leaf 2 =
        g_strnfill 2 ' ' ++ "\"id\": " ++ format_d (dbusmenu_menuitem_get_id sample_leaf)
          ++ concat ((dbusmenu_menuitem_properties_list sample_leaf).map fun name =>
              ",\n" ++ g_strnfill 2 ' ' ++ "\"" ++ name ++ "\": "
                ++ formatted_value env_sample
                    (dbusmenu_menuitem_property_get_value sample_leaf name) (2 + name.length + 4))
      ∧ (dbusmenu_menuitem_properties_list sample_leaf = [] →
          print_menuitem env_sample sample_leaf 2 =
            g_strnfill 2 ' ' ++ "\"id\": " ++ format_d (dbusmenu_menuitem_get_id sample_leaf))) :=
  ⟨rfl, print_menuitem_leaf env_sample sample_leaf 2 rfl⟩

theorem root_timeout_lemma (c : Environment) (root : DbusmenuMenuitem) (w : World) :
    (root_timeout c root w).stdout =
      w.stdout ++ ("\x7b\n" ++ print_menuitem c root 2 ++ "\n\x7d\n") := by
  simp only [root_timeout, String.append_assoc]

/-- C6: `root_timeout` appends to standard output an opening brace and a newline,
the text of `print_menuitem` for the root at depth 2, and a newline, a closing
brace and a newline; for the root with id 42, the one boolean property `visible`
whose generic rendering is `TRUE`, and no children, the output is the four
lines of the example. -/
theorem root_timeout_output (c : Environment) :
    (∀ (root : DbusmenuMenuitem) (w : World),
      (root_timeout c root w).stdout =
        w.stdout ++ ("\x7b\n" ++ print_menuitem c root 2 ++ "\n\x7d\n"))
    ∧ (c.g_strdup_value_contents (.boolean true) = "TRUE" →
        (root_timeout c sample_visible World.start).stdout =
          "\x7b\n  \"id\": 42,\n  \"visible\": TRUE\n\x7d\n") := by
  constructor
  · intro root w
    simp only [root_timeout, String.append_assoc]
  · intro h
    have e : print_menuitem c sample_visible 2 =
        g_strnfill 2 ' ' ++ "\"id\": " ++ format_d 42
          ++ (",\n" ++ g_strnfill 2 ' ' ++ "\"" ++ "visible" ++ "\": " ++ c.g_strdup_value_contents (.boolean true) ++ "")
          ++ "" := rfl
    simp only [root_timeout, World.start, e, h]
    decide

theorem root_timeout_output_witness :
    env_sample.g_strdup_value_contents (.boolean true) = "TRUE"
    ∧ (root_timeout env_sample sample_visible World.start).stdout =
        "\x7b\n  \"id\": 42,\n  \"visible\": TRUE\n\x7d\n" :=
  ⟨rfl, (root_timeout_output env_sample).2 rfl⟩


theorem print_children_block (c : Environment) (cs : List DbusmenuMenuitem) (i : Nat)
    (desc : DbusmenuMenuitem) (p : Nat) (h : cs[i]? = some desc) :
    ∃ b a : String,
      "\n" ++ (g_strnfill (p + 4) ' ' ++ ("\x7b\n" ++ (print_children c cs p
          ++ ("\n" ++ (g_strnfill (p + 4) ' ' ++ "\x7d"))))) =
        b ++ ("\n" ++ (g_strnfill (p + 4) ' ' ++ ("\x7b\n" ++ (print_menuitem c desc (p + 6)
          ++ ("\n" ++ (g_strnfill (p + 4) ' ' ++ ("\x7d" ++ a))))))) := by
  induction cs generalizing i with
  | nil => simp at h
  | cons x next ih =>
    cases i with
    | zero =>
      simp only [List.getElem?_cons_zero, Option.some.injEq] at h
      subst h
      cases next with
      | nil =>
        refine ⟨"", "", ?_⟩
        simp [print_children, String.append_assoc]
      | cons y t =>
        refine ⟨"", ",\n" ++ (g_strnfill (p + 4) ' ' ++ ("\x7b\n" ++ (print_children c (y :: t) p
          ++ ("\n" ++ (g_strnfill (p + 4) ' ' ++ "\x7d"))))), ?_⟩
        rw [print_children]
        have hs : ("\x7d,\n" : String) = "\x7d" ++ ",\n" := by decide
        simp only [List.isEmpty_cons, Bool.not_false, if_true, String.append_assoc,
          String.empty_append, hs]
    | succ j =>
      simp only [List.getElem?_cons_succ] at h
      cases next with
      | nil => simp at h
      | cons y t =>
        obtain ⟨b, a, e⟩ := ih j h
        refine ⟨"\n" ++ (g_strnfill (p + 4) ' ' ++ ("\x7b\n" ++ (print_menuitem c x (p + 6)
          ++ ("\n" ++ (g_strnfill (p + 4) ' ' ++ ("\x7d," ++ b)))))), a, ?_⟩
        rw [print_children]
        have hs : ("\x7d,\n" : String) = "\x7d," ++ "\n" := by decide
        simp only [List.isEmpty_cons, Bool.not_false, if_true, String.append_assoc, hs]
        rw [e]


theorem print_menuitem_child (c : Environment) (parent desc : DbusmenuMenuitem) (i p : Nat)
    (h : (dbusmenu_menuitem_get_children parent)[i]? = some desc) :
    ∃ b a : String,
      print_menuitem c parent p =
        b ++ ("\n" ++ g_strnfill (p + 4) ' ' ++ "\x7b\n" ++ print_menuitem c desc (p + 6)
          ++ "\n" ++ g_strnfill (p + 4) ' ' ++ "\x7d") ++ a := by
  obtain ⟨id, properties, value, children⟩ := parent
  simp only [dbusmenu_menuitem_get_children] at h
  cases children with
  | nil => simp at h
  | cons ch next =>
    obtain ⟨b, a, e⟩ := print_children_block c (ch :: next) i desc p h
    refine ⟨g_strnfill p ' ' ++ "\"id\": " ++ format_d id
      ++ print_properties c value p properties ++ ",\n" ++ g_strnfill p ' '
      ++ "\"submenu\": [" ++ b, a ++ "\n" ++ g_strnfill p ' ' ++ "]", ?_⟩
    have h1 : ("\"submenu\": [\n" : String) = "\"submenu\": [" ++ "\n" := by decide
    have h2 : ("\x7d\n" : String) = "\x7d" ++ "\n" := by decide
    have e2 := congrArg (fun t => t ++ ("\n" ++ (g_strnfill p ' ' ++ "]"))) e
    rw [print_menuitem]
    simp only [String.append_assoc, h1, h2] at e2 ⊢
    rw [e2]

theorem print_menuitem_descendant (c : Environment) (path : List Nat)
    (item parent : DbusmenuMenuitem) (d : Nat) (h : descendant item path = some parent) :
    ∃ b a : String,
      print_menuitem c item d = b ++ print_menuitem c parent (d + 6 * path.length) ++ a := by
  induction path generalizing item d with
  | nil =>
    simp only [descendant, Option.some.injEq] at h
    subst h
    exact ⟨"", "", by simp⟩
  | cons i rest ih =>
    rw [descendant] at h
    cases hc : (dbusmenu_menuitem_get_children item)[i]? with
    | none => simp [hc] at h
    | some child =>
      simp only [hc] at h
      obtain ⟨b0, a0, e0⟩ := print_menuitem_child c item child i d hc
      obtain ⟨b1, a1, e1⟩ := ih child (d + 6) h
      refine ⟨b0 ++ "\n" ++ g_strnfill (d + 4) ' ' ++ "\x7b\n" ++ b1,
        a1 ++ "\n" ++ g_strnfill (d + 4) ' ' ++ "\x7d" ++ a0, ?_⟩
      have hl : d + 6 * (i :: rest).length = d + 6 + 6 * rest.length := by
        simp only [List.length_cons]; omega
      rw [e0, e1, hl]
      simp only [String.append_assoc]

theorem descendant_append (path : List Nat) (item parent desc : DbusmenuMenuitem) (i : Nat)
    (hp : descendant item path = some parent)
    (hc : (dbusmenu_menuitem_get_children parent)[i]? = some desc) :
    descendant item (path ++ [i]) = some desc := by
  induction path generalizing item with
  | nil =>
    simp only [descendant, Option.some.injEq] at hp
    subst hp
    simp [descendant, hc]
  | cons j rest ih =>
    rw [descendant] at hp
    rw [List.cons_append, descendant]
    cases hj : (dbusmenu_menuitem_get_children item)[j]? with
    | none => simp [hj] at hp
    | some child =>
      simp only [hj] at hp ⊢
      exact ih child hp

theorem print_menuitem_starts (c : Environment) (item : DbusmenuMenuitem) (d : Nat) :
    ∃ rest : String, print_menuitem c item d = g_strnfill d ' ' ++ "\"id\": " ++ rest := by
  obtain ⟨id, properties, value, children⟩ := item
  cases children <;> simp only [print_menuitem, String.append_assoc] <;> exact ⟨_, rfl⟩


/-- C7: when `parent` is reached from `item` through `path` and `desc` is a child
of `parent`, so that `desc` is reached through `k = path.length + 1` levels, the
output of `print_menuitem item d` contains the rendering of `parent` at depth
`d + 6 (k - 1)` and, inside it, the rendering of `desc` at depth `d + 6 k`
between a line of `d + 6 (k - 1) + 4` spaces with an opening brace and a line
of as many spaces with a closing brace; the rendering of `desc` begins with
`d + 6 k` spaces followed by `"id": `; this indent is 6 more than that of the
parent and 2 more than that of the braces.  With the root at depth 2, as
`root_timeout` prints it, the rendering of `desc` is the one at depth
`2 + 6 k`. -/
theorem descendant_indent (c : Environment) (item parent desc : DbusmenuMenuitem)
    (path : List Nat) (i d : Nat)
    (hp : descendant item path = some parent)
    (hc : (dbusmenu_menuitem_get_children parent)[i]? = some desc) :
    descendant item (path ++ [i]) = some desc
    ∧ (∃ b a : String,
        print_menuitem c item d = b ++ print_menuitem c parent (d + 6 * path.length) ++ a)
    ∧ (∃ b a : String,
        print_menuitem c parent (d + 6 * path.length) =
          b ++ ("\n" ++ g_strnfill (d + 6 * path.length + 4) ' ' ++ "\x7b\n"
            ++ print_menuitem c desc (d + 6 * (path.length + 1))
            ++ "\n" ++ g_strnfill (d + 6 * path.length + 4) ' ' ++ "\x7d") ++ a)
    ∧ (∃ b a : String,
        print_menuitem c item d =
          b ++ ("\n" ++ g_strnfill (d + 6 * path.length + 4) ' ' ++ "\x7b\n"
            ++ print_menuitem c desc (d + 6 * (path.length + 1))
            ++ "\n" ++ g_strnfill (d + 6 * path.length + 4) ' ' ++ "\x7d") ++ a)
    ∧ (∃ rest : String,
        print_menuitem c desc (d + 6 * (path.length + 1)) =
          g_strnfill (d + 6 * (path.length + 1)) ' ' ++ "\"id\": " ++ rest)
    ∧ d + 6 * (path.length + 1) = (d + 6 * path.length) + 6
    ∧ d + 6 * (path.length + 1) = (d + 6 * path.length + 4) + 2
    ∧ (∃ b a : String, ∀ w : World,
        (root_timeout c item w).stdout =
          w.stdout ++ (b ++ ("\x7b\n" ++ print_menuitem c desc (2 + 6 * (path.length + 1))) ++ a)) := by
  have key : ∀ e : Nat, ∃ b a : String,
      print_menuitem c item e =
        b ++ ("\n" ++ g_strnfill (e + 6 * path.length + 4) ' ' ++ "\x7b\n"
          ++ print_menuitem c desc (e + 6 * (path.length + 1))
          ++ "\n" ++ g_strnfill (e + 6 * path.length + 4) ' ' ++ "\x7d") ++ a := by
    intro e
    obtain ⟨b0, a0, e0⟩ := print_menuitem_descendant c path item parent e hp
    obtain ⟨b1, a1, e1⟩ := print_menuitem_child c parent desc i (e + 6 * path.length) hc
    refine ⟨b0 ++ b1, a1 ++ a0, ?_⟩
    rw [e0, e1]
    simp only [String.append_assoc]
    rfl
  refine ⟨descendant_append path item parent desc i hp hc,
    print_menuitem_descendant c path item parent d hp,
    print_menuitem_child c parent desc i (d + 6 * path.length) hc,
    key d, print_menuitem_starts c desc _, by omega, by omega, ?_⟩
  obtain ⟨b, a, e⟩ := key 2
  refine ⟨"\x7b\n" ++ b ++ "\n" ++ g_strnfill (2 + 6 * path.length + 4) ' ',
    "\n" ++ g_strnfill (2 + 6 * path.length + 4) ' ' ++ "\x7d" ++ a ++ "\n\x7d\n", ?_⟩
  intro w
  rw [(root_timeout_lemma c item w), e]
  simp only [String.append_assoc]


theorem descendant_indent_witness :
    descendant sample_tree [1] = some sample_middle
    ∧ (dbusmenu_menuitem_get_children sample_middle)[0]? = some sample_leaf
    ∧ (∃ b a : String,
        print_menuitem env_sample sample_tree 2 =
          b ++ ("\n" ++ g_strnfill 12 ' ' ++ "\x7b\n"
            ++ print_menuitem env_sample sample_leaf 14
            ++ "\n" ++ g_strnfill 12 ' ' ++ "\x7d") ++ a) :=
  ⟨rfl, rfl,
    (descendant_indent env_sample sample_tree sample_middle sample_leaf [1] 0 2
      rfl rfl).2.2.2.1⟩

theorem g_strnfill_length (n : Nat) (ch : Char) : (g_strnfill n ch).length = n := by
  simp [g_strnfill, String.length]

/-- C8: for a collection-valued property `print_menuitem` passes to
`collection_dumper` the width `d + (characters of the name) + 4`, which is the
number of characters of the text, `d` spaces, the name in double quotes, `: `,
that precedes the value on its line; the array of the value begins with `[`
and each element string in it is indented by that many spaces. -/
theorem property_width (c : Environment) (value : String → GValue) (d : Nat)
    (name : String) (elems : List GValue) (h : value name = .collection elems) :
    print_property c value d name =
      ",\n" ++ (g_strnfill d ' ' ++ "\"" ++ name ++ "\": ")
        ++ collection_dumper c (.collection elems) (d + name.length + 4)
    ∧ (g_strnfill d ' ' ++ "\"" ++ name ++ "\": ").length = d + name.length + 4
    ∧ collection_array c (.collection elems) (d + name.length + 4) =
        "[" :: element_strings c (d + name.length + 4) elems
          ++ ["\n" ++ g_strnfill (d + name.length + 4) ' ' ++ "]"]
    ∧ (∀ id : Int, print_menuitem c (.mk id [name] value []) d =
        g_strnfill d ' ' ++ "\"id\": " ++ format_d id ++ print_property c value d name) := by
  refine ⟨?_, ?_, collection_array_eq c elems _, ?_⟩
  · rw [print_property_eq, h]
    simp only [formatted_value, String.append_assoc]
  · simp only [String.length_append, g_strnfill_length]
    have h1 : ("\"" : String).length = 1 := by decide
    have h2 : ("\": " : String).length = 3 := by decide
    omega
  · intro id
    simp only [print_menuitem, print_properties, String.append_empty]

theorem property_width_witness :
    (fun _ : String => GValue.collection [.int 1]) "types" = .collection [.int 1]
    ∧ print_property env_sample (fun _ => .collection [.int 1]) 2 "types" =
        ",\n" ++ (g_strnfill 2 ' ' ++ "\"" ++ "types" ++ "\": ")
          ++ collection_dumper env_sample (.collection [.int 1]) (2 + "types".length + 4)
    ∧ collection_array env_sample (.collection [.int 1]) (2 + "types".length + 4)
        = ["[", "\n           1", "\n           ]"] :=
  ⟨rfl, (property_width env_sample (fun _ => .collection [.int 1]) 2 "types" [.int 1]
    rfl).1, by decide⟩

/-- C9 fails as stated: a property that is a string array is no collection, so
`print_menuitem` formats it with the generic rendering and not with
`strv_dumper`.  With the rendering of GLib 2.74 a string that holds double
quotes is printed with the quotes escaped, where `strv_dumper` leaves them as
they are, and the empty array is printed as `[]`, where `strv_dumper` gives
`[""]`. -/
theorem strv_property_counterexample :
    print_menuitem env_sample sample_strv 2
      = "  \"id\": 1,\n  \"types\": [\"say \\\"hi\\\"\"]"
    ∧ "  \"id\": 1,\n  \"types\": " ++ strv_dumper ["say \"hi\""]
      = "  \"id\": 1,\n  \"types\": [\"say \"hi\"\"]"
    ∧ print_menuitem env_sample sample_strv 2
      ≠ "  \"id\": 1,\n  \"types\": " ++ strv_dumper ["say \"hi\""]
    ∧ print_menuitem env_sample sample_strv_empty 2 = "  \"id\": 1,\n  \"types\": []"
    ∧ print_menuitem env_sample sample_strv_empty 2
      ≠ "  \"id\": 1,\n  \"types\": " ++ strv_dumper [] := by
  decide

/-- C9, as the code has it: `print_menuitem` renders a property that is a string
array, like every other value that is no collection, through the generic
rendering; `strv_dumper` gives the text of a string array that is an element
of a collection-valued property, the other elements being rendered
generically. -/
theorem property_value_rendering (c : Environment) (value : String → GValue) (d : Nat)
    (name : String) :
    (∀ xs : List String, value name = .strv xs →
      print_property c value d name =
        ",\n" ++ g_strnfill d ' ' ++ "\"" ++ name ++ "\": "
          ++ c.g_strdup_value_contents (.strv xs))
    ∧ (∀ v : GValue, value name = v → dbus_g_type_is_collection v = false →
        print_property c value d name =
          ",\n" ++ g_strnfill d ' ' ++ "\"" ++ name ++ "\": " ++ c.g_strdup_value_contents v)
    ∧ (∀ elems : List GValue, value name = .collection elems →
        print_property c value d name =
          ",\n" ++ g_strnfill d ' ' ++ "\"" ++ name ++ "\": "
            ++ collection_dumper c (.collection elems) (d + name.length + 4)
        ∧ collection_array c (.collection elems) (d + name.length + 4) =
          "[" :: element_strings c (d + name.length + 4) elems
            ++ ["\n" ++ g_strnfill (d + name.length + 4) ' ' ++ "]"])
    ∧ (∀ xs : List String, element_text c (.strv xs) = strv_dumper xs)
    ∧ (∀ e : GValue, (∀ xs, e ≠ .strv xs) → element_text c e = c.g_strdup_value_contents e)
    ∧ (∀ id : Int, print_menuitem c (.mk id [name] value []) d =
        g_strnfill d ' ' ++ "\"id\": " ++ format_d id ++ print_property c value d name) := by
  refine ⟨?_, ?_, ?_, fun _ => rfl, ?_, ?_⟩
  · intro xs h
    rw [print_property_eq, h]
    rfl
  · intro v h hv
    rw [print_property_eq, h]
    cases v <;> first | rfl | simp [dbus_g_type_is_collection] at hv
  · intro elems h
    refine ⟨?_, collection_array_eq c elems _⟩
    rw [print_property_eq, h]
    rfl
  · intro e he
    cases e with
    | strv xs => exact absurd rfl (he xs)
    | _ => rfl
  · intro id
    simp only [print_menuitem, print_properties, String.append_empty]

theorem property_value_rendering_witness :
    (fun _ : String => GValue.strv ["a", "b", "c"]) "types" = .strv ["a", "b", "c"]
    ∧ print_property env_sample (fun _ => .strv ["a", "b", "c"]) 2 "types" =
        ",\n" ++ g_strnfill 2 ' ' ++ "\"" ++ "types" ++ "\": "
          ++ env_sample.g_strdup_value_contents (.strv ["a", "b", "c"])
    ∧ collection_array env_sample (.collection [.strv ["a", "b"], .strv ["say \"hi\""]]) 4
        = ["[", "\n    [\"a\", \"b\"]", ",\n    [\"say \"hi\"\"]", "\n    ]"] :=
  ⟨rfl, (property_value_rendering env_sample (fun _ => .strv ["a", "b", "c"]) 2
    "types").1 ["a", "b", "c"] rfl, by decide⟩


theorem g_option_context_parse_streams (argv : List OptionArg) (w : World) :
    (g_option_context_parse argv w).world.stdout = w.stdout
    ∧ (g_option_context_parse argv w).world.stderr = w.stderr
    ∧ (g_option_context_parse argv w).world.client_created = w.client_created := by
  induction argv generalizing w with
  | nil => exact ⟨rfl, rfl, rfl⟩
  | cons a rest ih =>
    cases a with
    | dbus_name value =>
      rw [g_option_context_parse]
      cases hn : w.dbusname with
      | none => simp only [option_dbusname, hn, if_true]; exact ih _
      | some old => simp [option_dbusname, hn]
    | dbus_object value =>
      rw [g_option_context_parse]
      cases hn : w.dbusobject with
      | none => simp only [option_dbusobject, hn, if_true]; exact ih _
      | some old => simp [option_dbusobject, hn]
    | positional text => rw [g_option_context_parse]; exact ih _
    | rejected message => exact ⟨rfl, rfl, rfl⟩

theorem main_parse_failed (c : Environment) (argv : List OptionArg)
    (client_new : String → String → Bool) (events : List LoopEvent)
    (h : (g_option_context_parse argv World.start).retval = false) :
    main c argv client_new events =
      (some 1,
        { (g_option_context_parse argv World.start).world with
          stderr := (g_option_context_parse argv World.start).world.stderr
            ++ "option parsing failed: "
            ++ (g_option_context_parse argv World.start).error.getD "" ++ "\n" }) := by
  unfold main
  simp only [h, Bool.not_false, if_true]

theorem g_option_context_parse_once (argv : List OptionArg) (w : World)
    (h : (g_option_context_parse argv w).retval = true) :
    count_dbus_name argv + w.dbusname.isSome.toNat ≤ 1
    ∧ count_dbus_object argv + w.dbusobject.isSome.toNat ≤ 1 := by
  induction argv generalizing w with
  | nil =>
    constructor
    · cases w.dbusname <;> simp [count_dbus_name]
    · cases w.dbusobject <;> simp [count_dbus_object]
  | cons a rest ih =>
    cases a with
    | dbus_name value =>
      rw [g_option_context_parse] at h
      cases hn : w.dbusname with
      | none =>
        simp only [option_dbusname, hn, if_true] at h
        have := ih _ h
        simpa [count_dbus_name, count_dbus_object] using this
      | some old => simp [option_dbusname, hn] at h
    | dbus_object value =>
      rw [g_option_context_parse] at h
      cases hn : w.dbusobject with
      | none =>
        simp only [option_dbusobject, hn, if_true] at h
        have := ih _ h
        simpa [count_dbus_name, count_dbus_object] using this
      | some old => simp [option_dbusobject, hn] at h
    | positional text =>
      rw [g_option_context_parse] at h
      have := ih _ h
      simpa [count_dbus_name, count_dbus_object] using this
    | rejected message => simp [g_option_context_parse] at h

/-- C10: each of `option_dbusname` and `option_dbusobject` stores the value and
succeeds when its variable is unset, and fails with an error, leaving the state
as it was, when it is set; so a command line with the same flag twice fails
option parsing, and `main` returns 1 with nothing written to standard output. -/
theorem option_set_once :
    (∀ (arg value : String) (w : World), w.dbusname = none →
      option_dbusname arg value w =
        { retval := true, error := none, world := { w with dbusname := some value } })
    ∧ (∀ (arg value old : String) (w : World), w.dbusname = some old →
        (option_dbusname arg value w).retval = false
        ∧ (option_dbusname arg value w).error.isSome = true
        ∧ (option_dbusname arg value w).world = w)
    ∧ (∀ (arg value : String) (w : World), w.dbusobject = none →
        option_dbusobject arg value w =
          { retval := true, error := none, world := { w with dbusobject := some value } })
    ∧ (∀ (arg value old : String) (w : World), w.dbusobject = some old →
        (option_dbusobject arg value w).retval = false
        ∧ (option_dbusobject arg value w).error.isSome = true
        ∧ (option_dbusobject arg value w).world = w)
    ∧ (∀ (c : Environment) (argv : List OptionArg) (client_new : String → String → Bool)
        (events : List LoopEvent),
        2 ≤ count_dbus_name argv ∨ 2 ≤ count_dbus_object argv →
        (g_option_context_parse argv World.start).retval = false
        ∧ (main c argv client_new events).1 = some 1
        ∧ (main c argv client_new events).2.stdout = ""
        ∧ (main c argv client_new events).2.client_created = false) := by
  refine ⟨?_, ?_, ?_, ?_, ?_⟩
  · intro arg value w h
    simp [option_dbusname, h]
  · intro arg value old w h
    simp [option_dbusname, h]
  · intro arg value w h
    simp [option_dbusobject, h]
  · intro arg value old w h
    simp [option_dbusobject, h]
  · intro c argv client_new events h
    have hr : (g_option_context_parse argv World.start).retval = false := by
      cases hv : (g_option_context_parse argv World.start).retval with
      | false => rfl
      | true =>
        have := g_option_context_parse_once argv World.start hv
        omega
    have hs := g_option_context_parse_streams argv World.start
    rw [main_parse_failed c argv client_new events hr]
    exact ⟨hr, rfl, hs.1, hs.2.2⟩


theorem option_set_once_witness :
    World.start.dbusname = none
    ∧ option_dbusname "--dbus-name" "foo" World.start =
        { retval := true, error := none, world := { World.start with dbusname := some "foo" } }
    ∧ (2 ≤ count_dbus_name [.dbus_name "foo", .dbus_name "bar"]
        ∨ 2 ≤ count_dbus_object [.dbus_name "foo", .dbus_name "bar"])
    ∧ (g_option_context_parse [.dbus_name "foo", .dbus_name "bar"] World.start).retval = false
    ∧ (main env_sample [.dbus_name "foo", .dbus_name "bar"] (fun _ _ => true) []).1 = some 1
    ∧ (main env_sample [.dbus_name "foo", .dbus_name "bar"] (fun _ _ => true) []).2.stdout = ""
    ∧ (main env_sample [.dbus_name "foo", .dbus_name "bar"] (fun _ _ => true) []).2.client_created
        = false :=
  ⟨rfl, option_set_once.1 "--dbus-name" "foo" World.start rfl, Or.inl (by decide),
    option_set_once.2.2.2.2 env_sample [.dbus_name "foo", .dbus_name "bar"]
      (fun _ _ => true) [] (Or.inl (by decide))⟩


/-! ## The exit paths of `main` -/

theorem main_missing_name (c : Environment) (argv : List OptionArg)
    (client_new : String → String → Bool) (events : List LoopEvent)
    (hr : (g_option_context_parse argv World.start).retval = true)
    (hn : (g_option_context_parse argv World.start).world.dbusname = none) :
    main c argv client_new events =
      (some 1, usage
        { (g_option_context_parse argv World.start).world with
          stderr := (g_option_context_parse argv World.start).world.stderr
            ++ "ERROR: dbus-name not specified\n" }) := by
  unfold main
  simp only [hr, hn, Bool.not_true, Bool.false_eq_true, if_false]

theorem main_missing_object (c : Environment) (argv : List OptionArg)
    (client_new : String → String → Bool) (events : List LoopEvent) (name : String)
    (hr : (g_option_context_parse argv World.start).retval = true)
    (hn : (g_option_context_parse argv World.start).world.dbusname = some name)
    (ho : (g_option_context_parse argv World.start).world.dbusobject = none) :
    main c argv client_new events =
      (some 1, usage
        { (g_option_context_parse argv World.start).world with
          stderr := (g_option_context_parse argv World.start).world.stderr
            ++ "ERROR: dbus-object not specified\n" }) := by
  unfold main
  simp only [hr, hn, ho, Bool.not_true, Bool.false_eq_true, if_false]

theorem main_client_failed (c : Environment) (argv : List OptionArg)
    (client_new : String → String → Bool) (events : List LoopEvent) (name object : String)
    (hr : (g_option_context_parse argv World.start).retval = true)
    (hn : (g_option_context_parse argv World.start).world.dbusname = some name)
    (ho : (g_option_context_parse argv World.start).world.dbusobject = some object)
    (hc : client_new name object = false) :
    main c argv client_new events =
      (some 1,
        { (g_option_context_parse argv World.start).world with
          stderr := (g_option_context_parse argv World.start).world.stderr
            ++ "ERROR: Unable to create Dbusmenu Client\n" }) := by
  unfold main
  simp only [hr, hn, ho, hc, Bool.not_true, Bool.not_false, Bool.false_eq_true, if_false, if_true]

theorem main_loop (c : Environment) (argv : List OptionArg)
    (client_new : String → String → Bool) (events : List LoopEvent) (name object : String)
    (hr : (g_option_context_parse argv World.start).retval = true)
    (hn : (g_option_context_parse argv World.start).world.dbusname = some name)
    (ho : (g_option_context_parse argv World.start).world.dbusobject = some object)
    (hc : client_new name object = true) :
    main c argv client_new events =
      (if (g_main_loop_run c events
            { (g_option_context_parse argv World.start).world with
              client_created := true }).loop_quit
        then some 0 else none,
        g_main_loop_run c events
          { (g_option_context_parse argv World.start).world with client_created := true }) := by
  unfold main
  simp only [hr, hn, ho, hc, Bool.not_true, Bool.false_eq_true, if_false]


theorem main_running (c : Environment) (argv : List OptionArg)
    (client_new : String → String → Bool) (events : List LoopEvent)
    (h : (main c argv client_new events).1 = none) :
    ∃ name object : String,
      (g_option_context_parse argv World.start).retval = true
      ∧ (g_option_context_parse argv World.start).world.dbusname = some name
      ∧ (g_option_context_parse argv World.start).world.dbusobject = some object
      ∧ client_new name object = true
      ∧ (g_main_loop_run c events
          { (g_option_context_parse argv World.start).world with
            client_created := true }).loop_quit = false := by
  cases hr : (g_option_context_parse argv World.start).retval with
  | false => rw [main_parse_failed c argv client_new events hr] at h; simp at h
  | true =>
    cases hn : (g_option_context_parse argv World.start).world.dbusname with
    | none => rw [main_missing_name c argv client_new events hr hn] at h; simp at h
    | some name =>
      cases ho : (g_option_context_parse argv World.start).world.dbusobject with
      | none => rw [main_missing_object c argv client_new events name hr hn ho] at h; simp at h
      | some object =>
        cases hc : client_new name object with
        | false =>
          rw [main_client_failed c argv client_new events name object hr hn ho hc] at h
          simp at h
        | true =>
          rw [main_loop c argv client_new events name object hr hn ho hc] at h
          refine ⟨name, object, rfl, rfl, rfl, hc, ?_⟩
          cases hq : (g_main_loop_run c events
            { (g_option_context_parse argv World.start).world with
              client_created := true }).loop_quit with
          | false => rfl
          | true => simp [hq] at h

theorem dispatch_running (c : Environment) (ev : LoopEvent) (w : World)
    (h : (dispatch c ev w).loop_quit = false) :
    (dispatch c ev w).stdout = w.stdout ∧ (dispatch c ev w).stderr = w.stderr
    ∧ (dispatch c ev w).client_created = w.client_created := by
  cases ev with
  | root_changed newroot =>
    cases newroot with
    | none => simp [dispatch, new_root_cb] at h
    | some r => exact ⟨rfl, rfl, rfl⟩
  | timeout =>
    cases ht : w.timeouts with
    | nil => simp [dispatch, ht]
    | cons data pending => simp [dispatch, ht, root_timeout] at h

theorem g_main_loop_run_running (c : Environment) (events : List LoopEvent) (w : World)
    (h : (g_main_loop_run c events w).loop_quit = false) :
    (g_main_loop_run c events w).stdout = w.stdout
    ∧ (g_main_loop_run c events w).stderr = w.stderr
    ∧ (g_main_loop_run c events w).client_created = w.client_created := by
  induction events generalizing w with
  | nil => exact ⟨rfl, rfl, rfl⟩
  | cons ev rest ih =>
    rw [g_main_loop_run] at h ⊢
    cases hq : (dispatch c ev w).loop_quit with
    | true => simp [hq] at h
    | false =>
      simp only [hq, Bool.false_eq_true, if_false] at h ⊢
      obtain ⟨h1, h2, h3⟩ := ih _ h
      obtain ⟨d1, d2, d3⟩ := dispatch_running c ev w hq
      exact ⟨h1.trans d1, h2.trans d2, h3.trans d3⟩

theorem g_main_loop_run_append (c : Environment) (pre rest : List LoopEvent) (w : World)
    (h : (g_main_loop_run c pre w).loop_quit = false) :
    g_main_loop_run c (pre ++ rest) w = g_main_loop_run c rest (g_main_loop_run c pre w) := by
  induction pre generalizing w with
  | nil => rfl
  | cons ev more ih =>
    rw [g_main_loop_run] at h
    rw [List.cons_append, g_main_loop_run, g_main_loop_run]
    cases hq : (dispatch c ev w).loop_quit with
    | true => simp [hq] at h
    | false =>
      simp only [hq, Bool.false_eq_true, if_false] at h ⊢
      exact ih _ h


/-- C11: when the command line parses but leaves `dbusname` or `dbusobject`
unset, `main` returns 1, writes to the error stream the error line for the
first of the two that is missing followed by the usage line, writes nothing to
standard output and creates no client. -/
theorem main_missing_flag (c : Environment) (argv : List OptionArg)
    (client_new : String → String → Bool) (events : List LoopEvent)
    (hr : (g_option_context_parse argv World.start).retval = true)
    (hm : (g_option_context_parse argv World.start).world.dbusname = none
      ∨ (g_option_context_parse argv World.start).world.dbusobject = none) :
    (main c argv client_new events).1 = some 1
    ∧ (main c argv client_new events).2.stderr =
        (if (g_option_context_parse argv World.start).world.dbusname.isNone
          then "ERROR: dbus-name not specified\n" else "ERROR: dbus-object not specified\n")
        ++ "dbusmenu-dumper --dbus-name=<name> --dbus-object=<object>\n"
    ∧ (main c argv client_new events).2.stdout = ""
    ∧ (main c argv client_new events).2.client_created = false := by
  obtain ⟨h1, h2, h3⟩ := g_option_context_parse_streams argv World.start
  have e1 : World.start.stdout = "" := rfl
  have e2 : World.start.stderr = "" := rfl
  have e3 : World.start.client_created = false := rfl
  rw [e1] at h1
  rw [e2] at h2
  rw [e3] at h3
  cases hn : (g_option_context_parse argv World.start).world.dbusname with
  | none =>
    rw [main_missing_name c argv client_new events hr hn]
    refine ⟨rfl, ?_, h1, h3⟩
    simp only [usage, h2, Option.isNone_none, if_true, String.empty_append]
  | some name =>
    have ho : (g_option_context_parse argv World.start).world.dbusobject = none := by
      rcases hm with hm | hm
      · rw [hn] at hm; cases hm
      · exact hm
    rw [main_missing_object c argv client_new events name hr hn ho]
    refine ⟨rfl, ?_, h1, h3⟩
    simp only [usage, h2, Option.isNone_some, Bool.false_eq_true, if_false, String.empty_append]

theorem main_missing_flag_witness :
    (g_option_context_parse [.dbus_name "org.test.bob"] World.start).retval = true
    ∧ ((g_option_context_parse [.dbus_name "org.test.bob"] World.start).world.dbusname = none
      ∨ (g_option_context_parse [.dbus_name "org.test.bob"] World.start).world.dbusobject = none)
    ∧ (main env_sample [.dbus_name "org.test.bob"] (fun _ _ => true)
        [.root_changed (some sample_visible), .timeout]).1 = some 1
    ∧ (main env_sample [.dbus_name "org.test.bob"] (fun _ _ => true)
        [.root_changed (some sample_visible), .timeout]).2.stdout = "" :=
  ⟨rfl, Or.inr rfl,
    (main_missing_flag env_sample [.dbus_name "org.test.bob"] (fun _ _ => true)
      [.root_changed (some sample_visible), .timeout] rfl (Or.inr rfl)).1,
    (main_missing_flag env_sample [.dbus_name "org.test.bob"] (fun _ _ => true)
      [.root_changed (some sample_visible), .timeout] rfl (Or.inr rfl)).2.2.1⟩

/-- C12 fails as stated: with both flags given and the client created, a
root-changed signal without a root makes `main` return 0, not 1. -/
theorem main_exit_status_counterexample :
    (main env_sample [.dbus_name "org.test.bob", .dbus_object "/org/test/bob"]
      (fun _ _ => true) [.root_changed none]).1 = some 0
    ∧ (main env_sample [.dbus_name "org.test.bob", .dbus_object "/org/test/bob"]
      (fun _ _ => true) [.root_changed none]).1 ≠ some 1 := by
  decide


theorem g_option_context_parse_loop (argv : List OptionArg) (w : World) :
    (g_option_context_parse argv w).world.loop_quit = w.loop_quit
    ∧ (g_option_context_parse argv w).world.timeouts = w.timeouts := by
  induction argv generalizing w with
  | nil => exact ⟨rfl, rfl⟩
  | cons a rest ih =>
    cases a with
    | dbus_name value =>
      rw [g_option_context_parse]
      cases hn : w.dbusname with
      | none => simp only [option_dbusname, hn, if_true]; exact ih _
      | some old => simp [option_dbusname, hn]
    | dbus_object value =>
      rw [g_option_context_parse]
      cases hn : w.dbusobject with
      | none => simp only [option_dbusobject, hn, if_true]; exact ih _
      | some old => simp [option_dbusobject, hn]
    | positional text => rw [g_option_context_parse]; exact ih _
    | rejected message => exact ⟨rfl, rfl⟩

/-- C12, as the code has it: `main` returns 1 when option parsing fails, when a
required flag is missing and when the client cannot be created; once the client
is created it never returns 1: it returns 0 after a dump (a root arrives and
its timeout comes due, the tree is printed) and it returns 0 as well when the
root-changed signal delivers no root. -/
theorem main_exit_status (c : Environment) (argv : List OptionArg)
    (client_new : String → String → Bool) :
    (∀ events, (g_option_context_parse argv World.start).retval = false →
      (main c argv client_new events).1 = some 1)
    ∧ (∀ events, (g_option_context_parse argv World.start).retval = true →
        ((g_option_context_parse argv World.start).world.dbusname = none
          ∨ (g_option_context_parse argv World.start).world.dbusobject = none) →
        (main c argv client_new events).1 = some 1)
    ∧ (∀ (events : List LoopEvent) (name object : String),
        (g_option_context_parse argv World.start).retval = true →
        (g_option_context_parse argv World.start).world.dbusname = some name →
        (g_option_context_parse argv World.start).world.dbusobject = some object →
        client_new name object = false →
        (main c argv client_new events).1 = some 1)
    ∧ (∀ (name object : String),
        (g_option_context_parse argv World.start).retval = true →
        (g_option_context_parse argv World.start).world.dbusname = some name →
        (g_option_context_parse argv World.start).world.dbusobject = some object →
        client_new name object = true →
        (∀ events, (main c argv client_new events).1 ≠ some 1)
        ∧ (∀ (root : DbusmenuMenuitem) (rest : List LoopEvent),
            (main c argv client_new (.root_changed (some root) :: .timeout :: rest)).1 = some 0
            ∧ (main c argv client_new (.root_changed (some root) :: .timeout :: rest)).2.stdout
                = "\x7b\n" ++ print_menuitem c root 2 ++ "\n\x7d\n")
        ∧ (∀ rest : List LoopEvent,
            (main c argv client_new (.root_changed none :: rest)).1 = some 0
            ∧ (main c argv client_new (.root_changed none :: rest)).2.stdout = "")) := by
  obtain ⟨h1, h2, h3⟩ := g_option_context_parse_streams argv World.start
  have e1 : World.start.stdout = "" := rfl
  rw [e1] at h1
  obtain ⟨q1, q2⟩ := g_option_context_parse_loop argv World.start
  have e4 : World.start.loop_quit = false := rfl
  have e5 : World.start.timeouts = [] := rfl
  rw [e4] at q1
  rw [e5] at q2
  refine ⟨?_, ?_, ?_, ?_⟩
  · intro events hr
    rw [main_parse_failed c argv client_new events hr]
  · intro events hr hm
    cases hn : (g_option_context_parse argv World.start).world.dbusname with
    | none => rw [main_missing_name c argv client_new events hr hn]
    | some name =>
      have ho : (g_option_context_parse argv World.start).world.dbusobject = none := by
        rcases hm with hm | hm
        · rw [hn] at hm; cases hm
        · exact hm
      rw [main_missing_object c argv client_new events name hr hn ho]
  · intro events name object hr hn ho hc
    rw [main_client_failed c argv client_new events name object hr hn ho hc]
  · intro name object hr hn ho hc
    refine ⟨?_, ?_, ?_⟩
    · intro events
      rw [main_loop c argv client_new events name object hr hn ho hc]
      cases (g_main_loop_run c events
        { (g_option_context_parse argv World.start).world with
          client_created := true }).loop_quit <;> simp
    · intro root rest
      rw [main_loop c argv client_new _ name object hr hn ho hc]
      simp only [g_main_loop_run, dispatch, new_root_cb, root_timeout, q1, q2,
        Bool.false_eq_true, if_false, if_true, List.nil_append, h1, String.empty_append,
        String.append_assoc, and_self]
    · intro rest
      rw [main_loop c argv client_new _ name object hr hn ho hc]
      simp only [g_main_loop_run, dispatch, new_root_cb, if_true, h1, and_self]


theorem main_exit_status_witness :
    (g_option_context_parse [.dbus_name "org.test.bob", .dbus_object "/org/test/bob"]
      World.start).retval = true
    ∧ (main env_sample [.dbus_name "org.test.bob", .dbus_object "/org/test/bob"]
        (fun _ _ => true) [.root_changed (some sample_visible), .timeout]).1 = some 0
    ∧ (main env_sample [.dbus_name "org.test.bob", .dbus_object "/org/test/bob"]
        (fun _ _ => true) [.root_changed (some sample_visible), .timeout]).2.stdout
          = "\x7b\n" ++ print_menuitem env_sample sample_visible 2 ++ "\n\x7d\n" :=
  ⟨rfl,
    ((main_exit_status env_sample
      [.dbus_name "org.test.bob", .dbus_object "/org/test/bob"] (fun _ _ => true)).2.2.2
      "org.test.bob" "/org/test/bob" rfl rfl rfl rfl).2.1 sample_visible []⟩

theorem g_main_loop_run_no_root (c : Environment) (rest : List LoopEvent) (w : World) :
    g_main_loop_run c (.root_changed none :: rest) w =
      { w with stderr := w.stderr ++ "ERROR: Unable to create Dbusmenu Root\n",
               loop_quit := true } := by
  simp only [g_main_loop_run, dispatch, new_root_cb, if_true]

/-- C13: `new_root_cb` without a root writes its error line to the error stream
and quits the loop, leaving standard output as it is; when that signal is
dispatched while the loop of `main` is running, `main` returns 0 with nothing
on standard output and that line alone on the error stream; when the client
cannot be created `main` returns 1. -/
theorem root_missing_exit (c : Environment) (argv : List OptionArg)
    (client_new : String → String → Bool) :
    (∀ w : World,
      new_root_cb none w =
        { w with stderr := w.stderr ++ "ERROR: Unable to create Dbusmenu Root\n",
                 loop_quit := true })
    ∧ (∀ pre rest : List LoopEvent, (main c argv client_new pre).1 = none →
        (main c argv client_new (pre ++ .root_changed none :: rest)).1 = some 0
        ∧ (main c argv client_new (pre ++ .root_changed none :: rest)).2.stdout = ""
        ∧ (main c argv client_new (pre ++ .root_changed none :: rest)).2.stderr
            = "ERROR: Unable to create Dbusmenu Root\n"
        ∧ (main c argv client_new (pre ++ .root_changed none :: rest)).2.loop_quit = true)
    ∧ (∀ (events : List LoopEvent) (name object : String),
        (g_option_context_parse argv World.start).retval = true →
        (g_option_context_parse argv World.start).world.dbusname = some name →
        (g_option_context_parse argv World.start).world.dbusobject = some object →
        client_new name object = false →
        (main c argv client_new events).1 = some 1
        ∧ (main c argv client_new events).2.stdout = ""
        ∧ (main c argv client_new events).2.stderr
            = "ERROR: Unable to create Dbusmenu Client\n") := by
  obtain ⟨h1, h2, _⟩ := g_option_context_parse_streams argv World.start
  have e1 : World.start.stdout = "" := rfl
  have e2 : World.start.stderr = "" := rfl
  rw [e1] at h1
  rw [e2] at h2
  refine ⟨fun w => rfl, ?_, ?_⟩
  · intro pre rest h
    obtain ⟨name, object, hr, hn, ho, hc, hq⟩ := main_running c argv client_new pre h
    obtain ⟨r1, r2, _⟩ := g_main_loop_run_running c pre _ hq
    have r1 := r1.trans h1
    have r2 := r2.trans h2
    rw [main_loop c argv client_new _ name object hr hn ho hc,
      g_main_loop_run_append c pre _ _ hq, g_main_loop_run_no_root]
    refine ⟨rfl, r1, ?_, rfl⟩
    show _ ++ "ERROR: Unable to create Dbusmenu Root\n" = _
    rw [r2, String.empty_append]
  · intro events name object hr hn ho hc
    rw [main_client_failed c argv client_new events name object hr hn ho hc]
    simp only [h1, h2, String.empty_append, and_self]

theorem root_missing_exit_witness :
    (main env_sample [.dbus_name "org.test.bob", .dbus_object "/org/test/bob"]
      (fun _ _ => true) [.root_changed (some sample_visible)]).1 = none
    ∧ (main env_sample [.dbus_name "org.test.bob", .dbus_object "/org/test/bob"]
        (fun _ _ => true)
        ([.root_changed (some sample_visible)] ++ .root_changed none :: [.timeout])).1 = some 0
    ∧ (main env_sample [.dbus_name "org.test.bob", .dbus_object "/org/test/bob"]
        (fun _ _ => true)
        ([.root_changed (some sample_visible)] ++ .root_changed none :: [.timeout])).2.stdout = "" :=
  ⟨rfl,
    ((root_missing_exit env_sample
      [.dbus_name "org.test.bob", .dbus_object "/org/test/bob"] (fun _ _ => true)).2.1
      [.root_changed (some sample_visible)] [.timeout] rfl).1,
    ((root_missing_exit env_sample
      [.dbus_name "org.test.bob", .dbus_object "/org/test/bob"] (fun _ _ => true)).2.1
      [.root_changed (some sample_visible)] [.timeout] rfl).2.1⟩

/-- C17: `option_dbusname` neither reads nor changes `dbusobject`, and
`option_dbusobject` neither reads nor changes `dbusname`: running a callback on
a state with the other variable replaced gives the same return value and error
and the same state with that variable replaced.  From a state with both unset
the two callbacks succeed in either order and end in the same state, with the
name and the object given. -/
theorem option_flags_independent :
    (∀ (arg value : String) (w : World) (x : Option String),
      option_dbusname arg value { w with dbusobject := x } =
        { retval := (option_dbusname arg value w).retval,
          error := (option_dbusname arg value w).error,
          world := { (option_dbusname arg value w).world with dbusobject := x } })
    ∧ (∀ (arg value : String) (w : World),
        (option_dbusname arg value w).world.dbusobject = w.dbusobject)
    ∧ (∀ (arg value : String) (w : World) (x : Option String),
        option_dbusobject arg value { w with dbusname := x } =
          { retval := (option_dbusobject arg value w).retval,
            error := (option_dbusobject arg value w).error,
            world := { (option_dbusobject arg value w).world with dbusname := x } })
    ∧ (∀ (arg value : String) (w : World),
        (option_dbusobject arg value w).world.dbusname = w.dbusname)
    ∧ (∀ (arg1 arg2 a b : String) (w : World), w.dbusname = none → w.dbusobject = none →
        (option_dbusname arg1 a w).retval = true
        ∧ (option_dbusobject arg2 b (option_dbusname arg1 a w).world).retval = true
        ∧ (option_dbusobject arg2 b w).retval = true
        ∧ (option_dbusname arg1 a (option_dbusobject arg2 b w).world).retval = true
        ∧ (option_dbusobject arg2 b (option_dbusname arg1 a w).world).world
            = (option_dbusname arg1 a (option_dbusobject arg2 b w).world).world
        ∧ (option_dbusobject arg2 b (option_dbusname arg1 a w).world).world
            = { w with dbusname := some a, dbusobject := some b }) := by
  refine ⟨?_, ?_, ?_, ?_, ?_⟩
  · intro arg value w x
    cases h : w.dbusname <;> simp [option_dbusname, h]
  · intro arg value w
    cases h : w.dbusname <;> simp [option_dbusname, h]
  · intro arg value w x
    cases h : w.dbusobject <;> simp [option_dbusobject, h]
  · intro arg value w
    cases h : w.dbusobject <;> simp [option_dbusobject, h]
  · intro arg1 arg2 a b w hn ho
    simp [option_dbusname, option_dbusobject, hn, ho]

theorem option_flags_independent_witness :
    World.start.dbusname = none ∧ World.start.dbusobject = none
    ∧ (option_dbusobject "-o" "/org/test/bob" (option_dbusname "-d" "org.test.bob"
        World.start).world).world
        = (option_dbusname "-d" "org.test.bob" (option_dbusobject "-o" "/org/test/bob"
            World.start).world).world :=
  ⟨rfl, rfl,
    (option_flags_independent.2.2.2.2 "-d" "-o" "org.test.bob" "/org/test/bob" World.start
      rfl rfl).2.2.2.2.1⟩


/-! ## Determinism -/

theorem print_properties_congr (c : Environment) (value value2 : String → GValue)
    (d : Nat) (names : List String) (h : ∀ name ∈ names, value name = value2 name) :
    print_properties c value d names = print_properties c value2 d names := by
  induction names with
  | nil => rfl
  | cons n rest ih =>
    have hn : value n = value2 n := h n (List.mem_cons_self n rest)
    have hr := ih (fun m hm => h m (List.mem_cons_of_mem n hm))
    simp only [print_properties, print_property, hn, hr]

theorem print_properties_append (c : Environment) (value : String → GValue) (d : Nat)
    (ps qs : List String) :
    print_properties c value d (ps ++ qs) =
      print_properties c value d ps ++ print_properties c value d qs := by
  induction ps with
  | nil => simp [print_properties]
  | cons n rest ih =>
    rw [List.cons_append, print_properties, print_properties, ih, String.append_assoc]

theorem same_trees_isEmpty : ∀ (l m : List DbusmenuMenuitem), same_trees l m →
    l.isEmpty = m.isEmpty
  | [], [], _ => rfl
  | _ :: _, _ :: _, _ => rfl
  | [], _ :: _, h => by simp [same_trees] at h
  | _ :: _, [], h => by simp [same_trees] at h

mutual
theorem print_menuitem_same (c : Environment) :
    ∀ (a b : DbusmenuMenuitem) (d : Nat), same_tree a b →
      print_menuitem c a d = print_menuitem c b d
  | .mk id ps v cs, .mk id2 ps2 v2 cs2, d, h => by
    simp only [same_tree] at h
    obtain ⟨h1, h2, h3, h4⟩ := h
    subst h1
    subst h2
    have hp := print_properties_congr c v v2 d ps h3
    cases cs with
    | nil =>
      cases cs2 with
      | nil => simp only [print_menuitem, hp]
      | cons b2 r2 => simp [same_trees] at h4
    | cons a1 r1 =>
      cases cs2 with
      | nil => simp [same_trees] at h4
      | cons b2 r2 =>
        have hc := print_children_same c (a1 :: r1) (b2 :: r2) d h4
        simp only [print_menuitem, hp, hc]
theorem print_children_same (c : Environment) :
    ∀ (l m : List DbusmenuMenuitem) (d : Nat), same_trees l m →
      print_children c l d = print_children c m d
  | [], [], _, _ => rfl
  | a :: rest, b :: rest2, d, h => by
    simp only [same_trees] at h
    have h1 := print_menuitem_same c a b (d + 4 + 2) h.1
    have h2 := print_children_same c rest rest2 d h.2
    have h3 := same_trees_isEmpty rest rest2 h.2
    simp only [print_children, h1, h2, h3]
  | [], _ :: _, _, h => by simp [same_trees] at h
  | _ :: _, [], _, h => by simp [same_trees] at h
end

mutual
theorem same_tree_refl : ∀ a : DbusmenuMenuitem, same_tree a a
  | .mk id ps v cs => by
    simp only [same_tree, true_and, implies_true]
    exact same_trees_refl cs
theorem same_trees_refl : ∀ l : List DbusmenuMenuitem, same_trees l l
  | [] => trivial
  | a :: rest => by
    simp only [same_trees]
    exact ⟨same_tree_refl a, same_trees_refl rest⟩
end


/-- C14: with the same memory behind the pointer arrays, two items that are the
same static tree (and so an item and itself) give the same text at the same
depth, the text `root_timeout` appends does not depend on the state of the
process, and the text of a list of properties is the texts of its parts one
after the other.  The text is not a function of the arguments alone:
`collection_dumper` also returns the strings that lie behind its array, so the
item `sample_collection` printed at depth 2 on a fresh heap and printed again
on a used heap, with the same value rendering, gives two different texts. -/
theorem serialization_deterministic (c : Environment) :
    (∀ (a b : DbusmenuMenuitem) (d : Nat), same_tree a b →
      print_menuitem c a d = print_menuitem c b d)
    ∧ (∀ a : DbusmenuMenuitem, same_tree a a)
    ∧ (∀ (root : DbusmenuMenuitem) (w w2 : World),
        (root_timeout c root w).stdout
          = w.stdout ++ ("\x7b\n" ++ print_menuitem c root 2 ++ "\n\x7d\n")
        ∧ (root_timeout c root w2).stdout
          = w2.stdout ++ ("\x7b\n" ++ print_menuitem c root 2 ++ "\n\x7d\n"))
    ∧ (∀ (a b : DbusmenuMenuitem) (w : World), same_tree a b →
        (root_timeout c b (root_timeout c a w)).stdout
          = w.stdout ++ ("\x7b\n" ++ print_menuitem c a 2 ++ "\n\x7d\n")
              ++ ("\x7b\n" ++ print_menuitem c a 2 ++ "\n\x7d\n"))
    ∧ (∀ (value : String → GValue) (d : Nat) (ps qs : List String),
        print_properties c value d (ps ++ qs) =
          print_properties c value d ps ++ print_properties c value d qs)
    ∧ (∀ (value value2 : String → GValue) (d : Nat) (name : String),
        value name = value2 name →
        print_property c value d name = print_property c value2 d name)
    ∧ env_sample.g_strdup_value_contents = env_stale.g_strdup_value_contents
    ∧ collection_dumper env_sample (.collection [.int 1]) 11 = "[\n           1\n           ]"
    ∧ collection_dumper env_stale (.collection [.int 1]) 11
        = "[\n           1\n           ][\n  1"
    ∧ print_menuitem env_sample sample_collection 2
        = "  \"id\": 5,\n  \"types\": [\n           1\n           ]"
    ∧ print_menuitem env_stale sample_collection 2
        = "  \"id\": 5,\n  \"types\": [\n           1\n           ][\n  1"
    ∧ print_menuitem env_sample sample_collection 2
        ≠ print_menuitem env_stale sample_collection 2 := by
  refine ⟨print_menuitem_same c, same_tree_refl, ?_, ?_, print_properties_append c, ?_,
    rfl, by decide, by decide, by decide, by decide, by decide⟩
  · intro root w w2
    exact ⟨root_timeout_lemma c root w, root_timeout_lemma c root w2⟩
  · intro a b w h
    rw [root_timeout_lemma, root_timeout_lemma, print_menuitem_same c a b 2 h]
  · intro value value2 d name h
    simp only [print_property, h]

theorem serialization_deterministic_witness :
    same_tree sample_visible sample_visible_again
    ∧ print_menuitem env_sample sample_visible 5
        = print_menuitem env_sample sample_visible_again 5 :=
  ⟨by simp [same_tree, same_trees, sample_visible, sample_visible_again],
    (serialization_deterministic env_sample).1 sample_visible sample_visible_again 5
      (by simp [same_tree, same_trees, sample_visible, sample_visible_again])⟩


/-! ## Characters of the output -/

theorem free_of_append (p : Char → Bool) (a b : String) :
    free_of p (a ++ b) = (free_of p a && free_of p b) := by
  simp [free_of, String.data_append]

theorem free_of_g_strnfill (p : Char → Bool) (n : Nat) (ch : Char) (h : p ch = false) :
    free_of p (g_strnfill n ch) = true := by
  simp [free_of, g_strnfill, h]

theorem free_of_g_strjoinv (p : Char → Bool) (sep : String) (l : List String)
    (hs : free_of p sep = true) (hl : l.all (free_of p) = true) :
    free_of p (g_strjoinv sep l) = true := by
  induction l with
  | nil => rfl
  | cons a t ih =>
    simp only [List.all_cons, Bool.and_eq_true] at hl
    cases t with
    | nil => simpa [g_strjoinv] using hl.1
    | cons b t =>
      rw [g_strjoinv_cons_cons, free_of_append, free_of_append, hl.1, hs, ih hl.2]
      rfl

theorem toDigitsCore_chars (fuel n : Nat) (ds : List Char) (ch : Char)
    (h : ch ∈ Nat.toDigitsCore 10 fuel n ds) : ch ∈ ds ∨ ch.isDigit = true := by
  induction fuel generalizing n ds with
  | zero => exact Or.inl (by simpa [Nat.toDigitsCore] using h)
  | succ f ih =>
    have hd : (Nat.digitChar (n % 10)).isDigit = true := by
      have : ∀ m, m < 10 → (Nat.digitChar m).isDigit = true := by decide
      exact this _ (Nat.mod_lt _ (by decide))
    rw [Nat.toDigitsCore] at h
    by_cases hz : n / 10 = 0
    · simp only [hz, if_true, List.mem_cons] at h
      rcases h with h | h
      · exact Or.inr (h ▸ hd)
      · exact Or.inl h
    · simp only [hz, if_false] at h
      rcases ih _ _ h with h | h
      · rcases List.mem_cons.mp h with h | h
        · exact Or.inr (h ▸ hd)
        · exact Or.inl h
      · exact Or.inr h

theorem format_d_chars (i : Int) (ch : Char) (h : ch ∈ (format_d i).data) :
    ch.isDigit = true ∨ ch = '-' := by
  cases i with
  | ofNat m =>
    have e : (format_d (Int.ofNat m)).data = Nat.toDigits 10 m := rfl
    rw [e, Nat.toDigits] at h
    rcases toDigitsCore_chars _ _ _ _ h with h | h
    · simp at h
    · exact Or.inl h
  | negSucc m =>
    have e : (format_d (Int.negSucc m)).data = '-' :: Nat.toDigits 10 (m + 1) := rfl
    rw [e, Nat.toDigits] at h
    rcases List.mem_cons.mp h with h | h
    · exact Or.inr h
    · rcases toDigitsCore_chars _ _ _ _ h with h | h
      · simp at h
      · exact Or.inl h

theorem free_of_format_d (p : Char → Bool) (i : Int)
    (hp : ∀ ch, p ch = true → ch.isDigit = false ∧ ch ≠ '-') :
    free_of p (format_d i) = true := by
  simp only [free_of, List.all_eq_true, Bool.not_eq_true']
  intro ch hch
  cases hpc : p ch with
  | false => rfl
  | true =>
    rcases format_d_chars i ch hch with h | h
    · rw [(hp ch hpc).1] at h; cases h
    · exact absurd h (hp ch hpc).2


/-! ## Indentation -/

theorem indent_after_newlines_append (k : Nat) (a b : List Char) :
    indent_after_newlines k (a ++ b) = indent_after_newlines k a ++ indent_after_newlines k b := by
  induction a with
  | nil => rfl
  | cons ch rest ih =>
    by_cases h : ch = '\n' <;> simp [indent_after_newlines, h, ih]

theorem shift_append (k : Nat) (a b : String) : shift k (a ++ b) = shift k a ++ shift k b := by
  apply String.ext
  simp [shift, String.data_append, indent_after_newlines_append]

theorem indent_after_newlines_free (k : Nat) (l : List Char)
    (h : l.all (fun ch => !is_newline ch) = true) : indent_after_newlines k l = l := by
  induction l with
  | nil => rfl
  | cons ch rest ih =>
    simp only [List.all_cons, Bool.and_eq_true, Bool.not_eq_true', is_newline,
      beq_eq_false_iff_ne, ne_eq] at h
    have ih := ih (by simpa [is_newline] using h.2)
    simp [indent_after_newlines, h.1, ih]

theorem shift_free (k : Nat) (s : String) (h : free_of is_newline s = true) : shift k s = s := by
  apply String.ext
  exact indent_after_newlines_free k s.data h

theorem shift_newline (k : Nat) : shift k "\n" = "\n" ++ g_strnfill k ' ' := by
  apply String.ext
  simp [shift, g_strnfill, indent_after_newlines, String.data_append]

theorem shift_g_strnfill (k n : Nat) : shift k (g_strnfill n ' ') = g_strnfill n ' ' :=
  shift_free k _ (free_of_g_strnfill _ _ _ (by decide))

theorem g_strnfill_add (k n : Nat) :
    g_strnfill k ' ' ++ g_strnfill n ' ' = g_strnfill (n + k) ' ' := by
  apply String.ext
  simp [g_strnfill, String.data_append, Nat.add_comm]

theorem shift_format_d (k : Nat) (i : Int) : shift k (format_d i) = format_d i :=
  shift_free k _ (free_of_format_d _ _ (by
    intro ch h
    have : ch = '\n' := by simpa [is_newline] using h
    subst this
    decide))

theorem free_of_strv_dumper (p : Char → Bool) (xs : List String)
    (h1 : free_of p "[\"" = true) (h2 : free_of p "\", \"" = true)
    (h3 : free_of p "\"]" = true) (h : xs.all (free_of p) = true) :
    free_of p (strv_dumper xs) = true := by
  unfold strv_dumper
  rw [free_of_append, free_of_append, h1, h3, free_of_g_strjoinv p _ xs h2 h]
  rfl

theorem shift_element_text (c : Environment) (k : Nat) (e : GValue)
    (h : element_free is_newline c e = true) : shift k (element_text c e) = element_text c e := by
  apply shift_free
  cases e with
  | strv xs =>
    exact free_of_strv_dumper _ xs (by decide) (by decide) (by decide) h
  | _ => exact h


theorem shift_comma_newline (k : Nat) : shift k ",\n" = ",\n" ++ g_strnfill k ' ' := by
  apply String.ext
  simp [shift, g_strnfill, indent_after_newlines, String.data_append]

theorem shift_open_newline (k : Nat) : shift k "\x7b\n" = "\x7b\n" ++ g_strnfill k ' ' := by
  apply String.ext
  simp [shift, g_strnfill, indent_after_newlines, String.data_append]

theorem shift_close_comma_newline (k : Nat) :
    shift k "\x7d,\n" = "\x7d,\n" ++ g_strnfill k ' ' := by
  apply String.ext
  simp [shift, g_strnfill, indent_after_newlines, String.data_append]

theorem shift_close_newline (k : Nat) : shift k "\x7d\n" = "\x7d\n" ++ g_strnfill k ' ' := by
  apply String.ext
  simp [shift, g_strnfill, indent_after_newlines, String.data_append]

theorem shift_submenu (k : Nat) :
    shift k "\"submenu\": [\n" = "\"submenu\": [\n" ++ g_strnfill k ' ' := by
  apply String.ext
  simp [shift, g_strnfill, indent_after_newlines, String.data_append]

theorem g_strnfill_add_append (k n : Nat) (rest : String) :
    g_strnfill k ' ' ++ (g_strnfill n ' ' ++ rest) = g_strnfill (n + k) ' ' ++ rest := by
  rw [← String.append_assoc, g_strnfill_add]

theorem shift_later_lines (c : Environment) (k w : Nat) (later : List GValue)
    (h : later.all (element_free is_newline c) = true) :
    shift k (concat (later.map fun x => ",\n" ++ g_strnfill w ' ' ++ element_text c x)) =
      concat (later.map fun x => ",\n" ++ g_strnfill (w + k) ' ' ++ element_text c x) := by
  induction later with
  | nil => rfl
  | cons e rest ih =>
    simp only [List.all_cons, Bool.and_eq_true] at h
    simp only [List.map_cons, concat, shift_append, shift_comma_newline, shift_g_strnfill,
      shift_element_text c k e h.1, ih h.2]
    simp only [String.append_assoc, g_strnfill_add_append]

theorem shift_element_lines (c : Environment) (k w : Nat) (elems : List GValue)
    (h : elems.all (element_free is_newline c) = true) :
    shift k (element_lines c w elems) = element_lines c (w + k) elems := by
  cases elems with
  | nil => rfl
  | cons e later =>
    simp only [List.all_cons, Bool.and_eq_true] at h
    simp only [element_lines, shift_append, shift_newline, shift_g_strnfill,
      shift_element_text c k e h.1, shift_later_lines c k w later h.2]
    simp only [String.append_assoc, g_strnfill_add_append]

theorem shift_formatted_value (c : Environment)
    (hz : ∀ v w, c.past_array v w = []) (k w : Nat) (v : GValue)
    (h : value_free is_newline c v = true) :
    shift k (formatted_value c v w) = formatted_value c v (w + k) := by
  cases v with
  | collection elems =>
    have hb : shift k "[" = "[" := shift_free k _ (by decide)
    have hc : shift k "]" = "]" := shift_free k _ (by decide)
    simp only [formatted_value, collection_dumper_clean c hz, shift_append, shift_newline,
      shift_g_strnfill, shift_element_lines c k w elems h, hb, hc]
    simp only [String.append_assoc, g_strnfill_add_append]
  | _ => exact shift_free k _ h

theorem shift_print_property (c : Environment)
    (hz : ∀ v w, c.past_array v w = []) (value : String → GValue) (k d : Nat)
    (name : String) (hn : free_of is_newline name = true)
    (hv : value_free is_newline c (value name) = true) :
    shift k (print_property c value d name) = print_property c value (d + k) name := by
  have hq : shift k "\"" = "\"" := shift_free k _ (by decide)
  have hc : shift k "\": " = "\": " := shift_free k _ (by decide)
  have ha : d + k + name.length + 4 = d + name.length + 4 + k := by omega
  rw [print_property_eq, print_property_eq, ha]
  simp only [shift_append, shift_comma_newline, shift_g_strnfill, shift_free k name hn, hq, hc,
    shift_formatted_value c hz k _ _ hv]
  simp only [String.append_assoc, g_strnfill_add_append]

theorem shift_print_properties (c : Environment)
    (hz : ∀ v w, c.past_array v w = []) (value : String → GValue) (k d : Nat)
    (names : List String)
    (h : names.all (fun name =>
      free_of is_newline name && value_free is_newline c (value name)) = true) :
    shift k (print_properties c value d names) = print_properties c value (d + k) names := by
  induction names with
  | nil => rfl
  | cons n rest ih =>
    simp only [List.all_cons, Bool.and_eq_true] at h
    rw [print_properties, print_properties, shift_append,
      shift_print_property c hz value k d n h.1.1 h.1.2, ih h.2]

mutual
theorem shift_print_menuitem (c : Environment)
    (hz : ∀ v w, c.past_array v w = []) (k : Nat) :
    ∀ (item : DbusmenuMenuitem) (d : Nat), tree_free is_newline c item = true →
      g_strnfill k ' ' ++ shift k (print_menuitem c item d) = print_menuitem c item (d + k)
  | .mk id ps v cs, d, h => by
    simp only [tree_free, Bool.and_eq_true] at h
    have hi : shift k "\"id\": " = "\"id\": " := shift_free k _ (by decide)
    have hb : shift k "]" = "]" := shift_free k _ (by decide)
    have he : shift k "" = "" := rfl
    have hp := shift_print_properties c hz v k d ps h.1
    cases cs with
    | nil =>
      simp only [print_menuitem, shift_append, shift_g_strnfill, shift_format_d, hi, hp, he]
      simp only [String.append_assoc, g_strnfill_add_append]
    | cons a rest =>
      have hc := shift_print_children c hz k (a :: rest) d h.2 (by simp)
      have h4 : d + k + 4 = d + 4 + k := by omega
      simp only [print_menuitem, shift_append, shift_g_strnfill, shift_format_d, hi, hp, hb,
        shift_comma_newline, shift_submenu, shift_open_newline, shift_newline,
        shift_close_newline, h4]
      simp only [String.append_assoc, g_strnfill_add_append, hc]
theorem shift_print_children (c : Environment)
    (hz : ∀ v w, c.past_array v w = []) (k : Nat) :
    ∀ (l : List DbusmenuMenuitem) (d : Nat), trees_free is_newline c l = true → l ≠ [] →
      g_strnfill k ' ' ++ shift k (print_children c l d) = print_children c l (d + k)
  | [], _, _, hne => absurd rfl hne
  | [a], d, h, _ => by
    simp only [trees_free, Bool.and_eq_true] at h
    have ha := shift_print_menuitem c hz k a (d + 4 + 2) h.1
    have h6 : d + k + 4 + 2 = d + 4 + 2 + k := by omega
    have he : shift k "" = "" := rfl
    simp only [print_children, List.isEmpty_nil, Bool.not_true, Bool.false_eq_true, if_false,
      shift_append, he, String.append_empty, h6, ha]
  | a :: b :: rest, d, h, _ => by
    simp only [trees_free, Bool.and_eq_true] at h
    have ha := shift_print_menuitem c hz k a (d + 4 + 2) h.1
    have hr := shift_print_children c hz k (b :: rest) d
      (by simp only [trees_free, Bool.and_eq_true]; exact h.2) (by simp)
    have h6 : d + k + 4 + 2 = d + 4 + 2 + k := by omega
    have h4 : d + k + 4 = d + 4 + k := by omega
    have e : ∀ n : Nat, print_children c (a :: b :: rest) n =
        print_menuitem c a (n + 4 + 2)
          ++ ("\n" ++ g_strnfill (n + 4) ' ' ++ "\x7d,\n" ++ g_strnfill (n + 4) ' ' ++ "\x7b\n")
          ++ print_children c (b :: rest) n := by
      intro n
      rw [print_children]
      simp only [List.isEmpty_cons, Bool.not_false, if_true]
    have h7 : d + 4 + k + 2 = d + 4 + 2 + k := by omega
    rw [e, e]
    simp only [shift_append, shift_newline, shift_g_strnfill, shift_close_comma_newline,
      shift_open_newline, h4, h7]
    simp only [String.append_assoc, g_strnfill_add_append, hr]
    rw [← String.append_assoc, ha]
end


/-- C15: when the word behind every pointer array is `NULL`, for an item tree
whose property names, generic renderings and string-list elements have no
newline, the text of `print_menuitem` at depth `d + k` is the text at depth `d`
with `k` spaces inserted at the start of every line.  On a used heap it is
not: for `sample_collection`, whose names, renderings and elements have no
newline, the line that lies behind the array keeps its two spaces at depth
`2 + 3`, where shifting the text of depth 2 gives it five. -/
theorem print_menuitem_indent :
    (∀ (c : Environment) (item : DbusmenuMenuitem) (d k : Nat),
      (∀ v w, c.past_array v w = []) → tree_free is_newline c item = true →
      print_menuitem c item (d + k) = indent_lines k (print_menuitem c item d))
    ∧ tree_free is_newline env_stale sample_collection = true
    ∧ print_menuitem env_stale sample_collection (2 + 3)
        = "     \"id\": 5,\n     \"types\": [\n              1\n              ][\n  1"
    ∧ indent_lines 3 (print_menuitem env_stale sample_collection 2)
        = "     \"id\": 5,\n     \"types\": [\n              1\n              ][\n     1"
    ∧ print_menuitem env_stale sample_collection (2 + 3)
        ≠ indent_lines 3 (print_menuitem env_stale sample_collection 2) := by
  refine ⟨?_, by decide, by decide, by decide, by decide⟩
  intro c item d k hz h
  rw [← shift_print_menuitem c hz k item d h]
  rfl

theorem print_menuitem_indent_witness :
    (∀ v w, env_sample.past_array v w = [])
    ∧ tree_free is_newline env_sample sample_tree = true
    ∧ print_menuitem env_sample sample_tree (2 + 3)
        = indent_lines 3 (print_menuitem env_sample sample_tree 2)
    ∧ indent_lines 2 "a\nb,\n c" = "  a\n  b,\n   c" :=
  ⟨fun _ _ => rfl, by decide,
    print_menuitem_indent.1 env_sample sample_tree 2 3 (fun _ _ => rfl) (by decide),
    by decide⟩


/-! ## Braces and brackets -/

theorem profile_append (a b : String) : profile (a ++ b) = profile a + profile b := by
  simp [profile, count_char, String.data_append, List.count_append]

theorem count_char_free (p : Char → Bool) (ch : Char) (s : String) (hp : p ch = true)
    (h : free_of p s = true) : count_char ch s = 0 := by
  simp only [free_of, List.all_eq_true, Bool.not_eq_true'] at h
  simp only [count_char, List.count_eq_zero]
  intro hm
  rw [h ch hm] at hp
  cases hp

theorem profile_free (s : String) (h : free_of is_bracket s = true) : profile s = (0, 0, 0, 0) := by
  simp only [profile, count_char_free is_bracket '\x7b' s (by decide) h,
    count_char_free is_bracket '\x7d' s (by decide) h,
    count_char_free is_bracket '[' s (by decide) h,
    count_char_free is_bracket ']' s (by decide) h]

theorem profile_g_strnfill (n : Nat) : profile (g_strnfill n ' ') = (0, 0, 0, 0) :=
  profile_free _ (free_of_g_strnfill _ _ _ (by decide))

theorem profile_format_d (i : Int) : profile (format_d i) = (0, 0, 0, 0) :=
  profile_free _ (free_of_format_d _ _ (by
    intro ch h
    simp only [is_bracket, Bool.or_eq_true, beq_iff_eq] at h
    rcases h with ((h | h) | h) | h <;> subst h <;> decide))

theorem profile_strv_dumper (xs : List String) (h : xs.all (free_of is_bracket) = true) :
    profile (strv_dumper xs) = (0, 0, 1, 1) := by
  have h1 : profile "[\"" = (0, 0, 1, 0) := by decide
  have h2 : profile "\"]" = (0, 0, 0, 1) := by decide
  have h3 := profile_free _ (free_of_g_strjoinv is_bracket "\", \"" xs (by decide) h)
  simp only [strv_dumper, profile_append, h1, h2, h3]
  rfl

theorem profile_element_text (c : Environment) (e : GValue)
    (h : element_free is_bracket c e = true) :
    profile (element_text c e) = (0, 0, element_brackets e, element_brackets e) := by
  cases e with
  | strv xs => exact profile_strv_dumper xs h
  | _ => exact profile_free _ h


theorem tuple_eq {a b c d a2 b2 c2 d2 : Nat} (h1 : a = a2) (h2 : b = b2) (h3 : c = c2)
    (h4 : d = d2) : (a, b, c, d) = (a2, b2, c2, d2) := by
  subst h1 h2 h3 h4
  rfl

theorem profile_later_lines (c : Environment) (w : Nat) (later : List GValue)
    (h : later.all (element_free is_bracket c) = true) :
    profile (concat (later.map fun x => ",\n" ++ g_strnfill w ' ' ++ element_text c x)) =
      (0, 0, (later.map element_brackets).sum, (later.map element_brackets).sum) := by
  induction later with
  | nil => rfl
  | cons e rest ih =>
    simp only [List.all_cons, Bool.and_eq_true] at h
    have h1 : profile ",\n" = (0, 0, 0, 0) := by decide
    simp only [List.map_cons, concat, profile_append, h1, profile_g_strnfill,
      profile_element_text c e h.1, ih h.2, List.sum_cons, Prod.mk_add_mk]
    apply tuple_eq <;> omega

theorem profile_element_lines (c : Environment) (w : Nat) (elems : List GValue)
    (h : elems.all (element_free is_bracket c) = true) :
    profile (element_lines c w elems) =
      (0, 0, (elems.map element_brackets).sum, (elems.map element_brackets).sum) := by
  cases elems with
  | nil => rfl
  | cons e later =>
    simp only [List.all_cons, Bool.and_eq_true] at h
    have h1 : profile "\n" = (0, 0, 0, 0) := by decide
    simp only [element_lines, profile_append, h1, profile_g_strnfill,
      profile_element_text c e h.1, profile_later_lines c w later h.2, List.map_cons,
      List.sum_cons, Prod.mk_add_mk]
    apply tuple_eq <;> omega

theorem profile_formatted_value (c : Environment)
    (hz : ∀ v w, c.past_array v w = []) (w : Nat) (v : GValue)
    (h : value_free is_bracket c v = true) :
    profile (formatted_value c v w) = (0, 0, value_brackets v, value_brackets v) := by
  cases v with
  | collection elems =>
    have h1 : profile "\n" = (0, 0, 0, 0) := by decide
    have h2 : profile "[" = (0, 0, 1, 0) := by decide
    have h3 : profile "]" = (0, 0, 0, 1) := by decide
    simp only [formatted_value, collection_dumper_clean c hz, profile_append, h1, h2, h3,
      profile_g_strnfill, profile_element_lines c w elems h, value_brackets, Prod.mk_add_mk]
    apply tuple_eq <;> omega
  | _ => exact profile_free _ h

theorem profile_print_property (c : Environment)
    (hz : ∀ v w, c.past_array v w = []) (value : String → GValue) (d : Nat)
    (name : String) (hn : free_of is_bracket name = true)
    (hv : value_free is_bracket c (value name) = true) :
    profile (print_property c value d name) =
      (0, 0, value_brackets (value name), value_brackets (value name)) := by
  have h1 : profile ",\n" = (0, 0, 0, 0) := by decide
  have h2 : profile "\"" = (0, 0, 0, 0) := by decide
  have h3 : profile "\": " = (0, 0, 0, 0) := by decide
  simp only [print_property_eq, profile_append, h1, h2, h3, profile_g_strnfill,
    profile_free name hn, profile_formatted_value c hz _ _ hv, Prod.mk_add_mk]
  apply tuple_eq <;> omega

theorem profile_print_properties (c : Environment)
    (hz : ∀ v w, c.past_array v w = []) (value : String → GValue) (d : Nat)
    (names : List String)
    (h : names.all (fun name =>
      free_of is_bracket name && value_free is_bracket c (value name)) = true) :
    profile (print_properties c value d names) =
      (0, 0, (names.map fun name => value_brackets (value name)).sum,
        (names.map fun name => value_brackets (value name)).sum) := by
  induction names with
  | nil => rfl
  | cons n rest ih =>
    simp only [List.all_cons, Bool.and_eq_true] at h
    simp only [print_properties, profile_append, profile_print_property c hz value d n h.1.1 h.1.2,
      ih h.2, List.map_cons, List.sum_cons, Prod.mk_add_mk, Nat.add_zero]


mutual
theorem profile_print_menuitem (c : Environment)
    (hz : ∀ v w, c.past_array v w = []) :
    ∀ (item : DbusmenuMenuitem) (d : Nat), tree_free is_bracket c item = true →
      profile (print_menuitem c item d) + (1, 1, 0, 0) =
        (count_items item, count_items item, count_brackets item, count_brackets item)
  | .mk id ps v cs, d, h => by
    simp only [tree_free, Bool.and_eq_true] at h
    have hi : profile "\"id\": " = (0, 0, 0, 0) := by decide
    have he : profile "" = (0, 0, 0, 0) := by decide
    have hp := profile_print_properties c hz v d ps h.1
    cases cs with
    | nil =>
      simp only [print_menuitem, profile_append, profile_g_strnfill, profile_format_d, hi, he,
        hp, count_items, count_items_list, count_brackets, count_brackets_list,
        List.isEmpty_nil, if_true, Prod.mk_add_mk]
      apply tuple_eq <;> omega
    | cons a rest =>
      have hc := profile_print_children c hz (a :: rest) d h.2 (by simp)
      have h1 : profile ",\n" = (0, 0, 0, 0) := by decide
      have h2 : profile "\"submenu\": [\n" = (0, 0, 1, 0) := by decide
      have h3 : profile "\x7b\n" = (1, 0, 0, 0) := by decide
      have h4 : profile "\n" = (0, 0, 0, 0) := by decide
      have h5 : profile "\x7d\n" = (0, 1, 0, 0) := by decide
      have h6 : profile "]" = (0, 0, 0, 1) := by decide
      simp only [print_menuitem, profile_append, profile_g_strnfill, profile_format_d, hi,
        hp, h1, h2, h3, h4, h5, h6, count_items, count_brackets, List.isEmpty_cons,
        Bool.false_eq_true, if_false]
      generalize profile (print_children c (a :: rest) d) = q at hc ⊢
      obtain ⟨q1, q2, q3, q4⟩ := q
      simp only [Prod.mk_add_mk, Prod.mk.injEq] at hc
      obtain ⟨e1, e2, e3, e4⟩ := hc
      simp only [Prod.mk_add_mk]
      apply tuple_eq <;> omega
theorem profile_print_children (c : Environment)
    (hz : ∀ v w, c.past_array v w = []) :
    ∀ (l : List DbusmenuMenuitem) (d : Nat), trees_free is_bracket c l = true → l ≠ [] →
      profile (print_children c l d) + (1, 1, 0, 0) =
        (count_items_list l, count_items_list l, count_brackets_list l, count_brackets_list l)
  | [], _, _, hne => absurd rfl hne
  | [a], d, h, _ => by
    simp only [trees_free, Bool.and_eq_true] at h
    have ha := profile_print_menuitem c hz a (d + 4 + 2) h.1
    have he : profile "" = (0, 0, 0, 0) := by decide
    simp only [print_children, List.isEmpty_nil, Bool.not_true, Bool.false_eq_true, if_false,
      profile_append, he, count_items_list, count_brackets_list]
    generalize profile (print_menuitem c a (d + 4 + 2)) = q at ha ⊢
    obtain ⟨q1, q2, q3, q4⟩ := q
    simp only [Prod.mk_add_mk, Prod.mk.injEq] at ha
    obtain ⟨e1, e2, e3, e4⟩ := ha
    simp only [Prod.mk_add_mk]
    apply tuple_eq <;> omega
  | a :: b :: rest, d, h, _ => by
    simp only [trees_free, Bool.and_eq_true] at h
    have ha := profile_print_menuitem c hz a (d + 4 + 2) h.1
    have hr := profile_print_children c hz (b :: rest) d
      (by simp only [trees_free, Bool.and_eq_true]; exact h.2) (by simp)
    have e : print_children c (a :: b :: rest) d =
        print_menuitem c a (d + 4 + 2)
          ++ ("\n" ++ g_strnfill (d + 4) ' ' ++ "\x7d,\n" ++ g_strnfill (d + 4) ' ' ++ "\x7b\n")
          ++ print_children c (b :: rest) d := by
      rw [print_children]
      simp only [List.isEmpty_cons, Bool.not_false, if_true]
    have h1 : profile "\n" = (0, 0, 0, 0) := by decide
    have h2 : profile "\x7d,\n" = (0, 1, 0, 0) := by decide
    have h3 : profile "\x7b\n" = (1, 0, 0, 0) := by decide
    have n1 : count_items_list (a :: b :: rest) = count_items a + count_items_list (b :: rest) := by
      rw [count_items_list]
    have n2 : count_brackets_list (a :: b :: rest)
        = count_brackets a + count_brackets_list (b :: rest) := by
      rw [count_brackets_list]
    rw [e, n1, n2]
    simp only [profile_append, profile_g_strnfill, h1, h2, h3]
    generalize profile (print_menuitem c a (d + 4 + 2)) = q at ha ⊢
    generalize profile (print_children c (b :: rest) d) = r at hr ⊢
    obtain ⟨q1, q2, q3, q4⟩ := q
    obtain ⟨r1, r2, r3, r4⟩ := r
    simp only [Prod.mk_add_mk, Prod.mk.injEq] at ha hr
    obtain ⟨e1, e2, e3, e4⟩ := ha
    obtain ⟨f1, f2, f3, f4⟩ := hr
    simp only [Prod.mk_add_mk]
    apply tuple_eq <;> omega
end


/-- C16: when the word behind every pointer array is `NULL`, for an item tree
whose property names, generic renderings and string-list elements have no
brace and no square bracket, the text written by `root_timeout` has as many
opening as closing braces and as many opening as closing square brackets; the
number of opening braces is the number of items of the tree, and the number
of opening square brackets is the number of submenu blocks, collection values
and string arrays among the elements of collections.  On a used heap it is
not: for `sample_collection` the `[` that lies behind the array is written
too, two opening square brackets against one closing. -/
theorem root_timeout_balanced :
    (∀ (c : Environment) (root : DbusmenuMenuitem),
      (∀ v w, c.past_array v w = []) → tree_free is_bracket c root = true →
      (∀ w : World, (root_timeout c root w).stdout
        = w.stdout ++ (root_timeout c root World.start).stdout)
      ∧ count_char '\x7b' (root_timeout c root World.start).stdout
          = count_char '\x7d' (root_timeout c root World.start).stdout
      ∧ count_char '[' (root_timeout c root World.start).stdout
          = count_char ']' (root_timeout c root World.start).stdout
      ∧ count_char '\x7b' (root_timeout c root World.start).stdout = count_items root
      ∧ count_char '[' (root_timeout c root World.start).stdout = count_brackets root)
    ∧ tree_free is_bracket env_stale sample_collection = true
    ∧ (root_timeout env_stale sample_collection World.start).stdout
        = "\x7b\n  \"id\": 5,\n  \"types\": [\n           1\n           ][\n  1\n\x7d\n"
    ∧ count_char '[' (root_timeout env_stale sample_collection World.start).stdout = 2
    ∧ count_char ']' (root_timeout env_stale sample_collection World.start).stdout = 1
    ∧ count_brackets sample_collection = 1 := by
  refine ⟨?_, by decide, by decide, by decide, by decide, by decide⟩
  intro c root hz h
  have hs : (root_timeout c root World.start).stdout
      = "\x7b\n" ++ print_menuitem c root 2 ++ "\n\x7d\n" := by
    rw [root_timeout_lemma]
    exact String.empty_append _
  have h1 : profile "\x7b\n" = (1, 0, 0, 0) := by decide
  have h2 : profile "\n\x7d\n" = (0, 1, 0, 0) := by decide
  have hp : profile (root_timeout c root World.start).stdout
      = (count_items root, count_items root, count_brackets root, count_brackets root) := by
    have hq := profile_print_menuitem c hz root 2 h
    rw [hs]
    simp only [profile_append, h1, h2]
    generalize profile (print_menuitem c root 2) = q at hq ⊢
    obtain ⟨q1, q2, q3, q4⟩ := q
    simp only [Prod.mk_add_mk, Prod.mk.injEq] at hq
    obtain ⟨e1, e2, e3, e4⟩ := hq
    simp only [Prod.mk_add_mk]
    apply tuple_eq <;> omega
  simp only [profile, Prod.mk.injEq] at hp
  obtain ⟨p1, p2, p3, p4⟩ := hp
  refine ⟨?_, by rw [p1, p2], by rw [p3, p4], p1, p3⟩
  intro w
  rw [hs, root_timeout_lemma]

theorem root_timeout_balanced_witness :
    (∀ v w, env_sample.past_array v w = [])
    ∧ tree_free is_bracket env_sample sample_tree = true
    ∧ count_char '\x7b' (root_timeout env_sample sample_tree World.start).stdout
        = count_items sample_tree
    ∧ count_items sample_tree = 4
    ∧ count_char '[' (root_timeout env_sample sample_tree World.start).stdout
        = count_brackets sample_tree
    ∧ count_brackets sample_tree = 4 :=
  ⟨fun _ _ => rfl, by decide,
    (root_timeout_balanced.1 env_sample sample_tree (fun _ _ => rfl) (by decide)).2.2.2.1,
    by decide,
    (root_timeout_balanced.1 env_sample sample_tree (fun _ _ => rfl) (by decide)).2.2.2.2,
    by decide⟩


end DbusmenuDumper
